import Mathlib

/-!
Shallow embedding of the non-Euclidean geometry kernel of the
`geometry-lab` repository (file `spaceEngine.ts` plus the hand-measure
helpers of `App.tsx`).  JavaScript numbers are modelled by `ℝ`;
`Math.hypot`, `Math.atan2`, `Math.acosh`, … are modelled by their exact
mathematical counterparts.  Array accesses `a[i]` are modelled by
`List.getD i` with a zero default (all modelled accesses are in bounds).
JS object spreads become Lean structure updates.
-/

noncomputable section

open scoped Classical

/-- 2-D point / vector (`Vec2` of `spaceEngine.ts`). -/
@[ext]
structure Vec2 where
  x : ℝ
  y : ℝ

/-- 3-D vector (`Vec3` of `spaceEngine.ts`). -/
@[ext]
structure Vec3 where
  x : ℝ
  y : ℝ
  z : ℝ

/-- The three space variants (`SpaceId = "E" | "H" | "S"`). -/
inductive SpaceId where
  | E
  | H
  | S
deriving DecidableEq

/-- Polyline record shared by `Shape` and `InProgress`. -/
structure PolyData where
  pts : List Vec2
  color : String
  width : ℝ

/-- Committed shape: polyline or marker. -/
inductive Shape where
  | polyline (d : PolyData)
  | marker (p : Vec2) (color : String)

/-- In-progress trace (`null` becomes `none`). -/
abbrev InProgress := Option PolyData

/-- Action-log entry.  The JS `Record<string, unknown>` payload of `OBS`
is abstracted as a list of key/value strings (never inspected by the
kernel). -/
inductive LogEntry where
  | ADVANCE (t dist : ℝ)
  | TURN (t deg : ℝ)
  | TRACE_LINE (t length : ℝ)
  | TRACE_CIRCLE (t radius : ℝ)
  | TRIANGLE_CREATED (t : ℝ) (labels : List String) (points : List Vec2)
  | MEASURE_ANGLE (t valueDeg : ℝ) (A B C : Vec2)
  | COPY_TO_SPACE (t : ℝ) (from' to' : SpaceId) (what : String)
  | OBS (t : ℝ) (title : String) (data : List (String × String))

/-- Turning-animation record (`rotate` field of `anim`).  The JS field
names `from`/`to` are Lean keywords, hence `from'`/`to'`. -/
structure Rotate where
  from' : ℝ
  to' : ℝ
  elapsed : ℝ
  duration : ℝ

/-- Animation job state (the `anim` field of `EngineState`); a missing
`rotate` field in a JS object literal becomes `none`. -/
structure Anim where
  active : Bool
  path : List Vec2
  i : ℕ
  t : ℝ
  speed : ℝ
  addToTrace : Bool
  rotate : Option Rotate

/-- The engine state (`EngineState` of `spaceEngine.ts`). -/
structure EngineState where
  space : SpaceId
  e_pos : Vec2
  e_theta : ℝ
  h_pos : Vec2
  h_theta : ℝ
  s_p : Vec3
  s_t : Vec3
  shapes : List Shape
  inProgress : InProgress
  log : List LogEntry
  anim : Anim

/-- Result record `{ path, next }` of `buildAdvancePath`. -/
structure BuildResult where
  path : List Vec2
  next : EngineState

/-- Result record `{ path, next, traceColor }` of the trace builders. -/
structure TraceResult where
  path : List Vec2
  next : EngineState
  traceColor : String

/-! ### Vector helpers of `spaceEngine.ts` -/

/-- `clamp` of `spaceEngine.ts`: `Math.max(a, Math.min(b, v))`. -/
def clamp (v a b : ℝ) : ℝ := max a (min b v)

/-- `hypot2`: `Math.hypot(v.x, v.y)`. -/
def hypot2 (v : Vec2) : ℝ := Real.sqrt (v.x ^ 2 + v.y ^ 2)

def add2 (a b : Vec2) : Vec2 := ⟨a.x + b.x, a.y + b.y⟩

def sub2 (a b : Vec2) : Vec2 := ⟨a.x - b.x, a.y - b.y⟩

def mul2 (a : Vec2) (k : ℝ) : Vec2 := ⟨a.x * k, a.y * k⟩

def dot2 (a b : Vec2) : ℝ := a.x * b.x + a.y * b.y

/-- `norm2`: normalize, with fallback `(1,0)` for the zero vector. -/
def norm2 (a : Vec2) : Vec2 :=
  let n := hypot2 a
  if n > 0 then mul2 a (1 / n) else ⟨1, 0⟩

def dot3 (a b : Vec3) : ℝ := a.x * b.x + a.y * b.y + a.z * b.z

/-- `hypot3`: `Math.hypot(v.x, v.y, v.z)`. -/
def hypot3 (v : Vec3) : ℝ := Real.sqrt (v.x ^ 2 + v.y ^ 2 + v.z ^ 2)

def mul3 (v : Vec3) (k : ℝ) : Vec3 := ⟨v.x * k, v.y * k, v.z * k⟩

def add3 (a b : Vec3) : Vec3 := ⟨a.x + b.x, a.y + b.y, a.z + b.z⟩

/-- `norm3`: normalize, with fallback `(1,0,0)` for the zero vector. -/
def norm3 (v : Vec3) : Vec3 :=
  let n := hypot3 v
  if n > 0 then mul3 v (1 / n) else ⟨1, 0, 0⟩

def cross3 (a b : Vec3) : Vec3 :=
  ⟨a.y * b.z - a.z * b.y, a.z * b.x - a.x * b.z, a.x * b.y - a.y * b.x⟩

/-- `Math.atan2(y, x)`, modelled by the principal argument of the complex
number `x + y·i` (the two agree everywhere, including `atan2 0 0 = 0`). -/
def atan2 (y x : ℝ) : ℝ := Complex.arg ⟨x, y⟩

/-! ### Initial state and accessors -/

/-- `createInitialState`. -/
def createInitialState (space : SpaceId) : EngineState :=
  let s_p := norm3 ⟨0, 0, 1⟩
  let s_t := norm3 ⟨1, 0, 0⟩
  { space := space
    e_pos := ⟨0, 0⟩
    e_theta := 0
    h_pos := ⟨0, 0⟩
    h_theta := 0
    s_p := s_p
    s_t := s_t
    shapes := []
    inProgress := none
    log := []
    anim := ⟨false, [], 0, 0, 0.6, false, none⟩ }

/-- `sphereToWorld2`: drop the z coordinate. -/
def sphereToWorld2 (p : Vec3) : Vec2 := ⟨p.x, p.y⟩

/-- `frogWorldPos`. -/
def frogWorldPos (state : EngineState) : Vec2 :=
  match state.space with
  | .E => state.e_pos
  | .H => state.h_pos
  | .S => sphereToWorld2 state.s_p

/-- `frogHeadingWorldDir`. -/
def frogHeadingWorldDir (state : EngineState) : Vec2 :=
  match state.space with
  | .E => ⟨Real.cos state.e_theta, Real.sin state.e_theta⟩
  | .H => ⟨Real.cos state.h_theta, Real.sin state.h_theta⟩
  | .S => norm2 (sphereToWorld2 state.s_t)

/-! ### Hyperbolic (Poincaré disk) helpers -/

/-- `mobiusAdd`. -/
def mobiusAdd (a b : Vec2) : Vec2 :=
  let a2 := dot2 a a
  let b2 := dot2 b b
  let ab := dot2 a b
  let denom := 1 + 2 * ab + a2 * b2
  ⟨((1 + 2 * ab + b2) * a.x + (1 - a2) * b.x) / denom,
   ((1 + 2 * ab + b2) * a.y + (1 - a2) * b.y) / denom⟩

/-- The source's local `tanh` helper: `(e^{2x} - 1)/(e^{2x} + 1)`. -/
def tanh (x : ℝ) : ℝ :=
  let e2x := Real.exp (2 * x)
  (e2x - 1) / (e2x + 1)

/-- `hyperbolicDirectionAtOrigin`. -/
def hyperbolicDirectionAtOrigin (p dir : Vec2) : Vec2 :=
  let eps : ℝ := 1e-4
  let safeDir := norm2 dir
  let q0' := add2 p (mul2 safeDir eps)
  let q := if dot2 q0' q0' ≥ 0.9999 then mul2 (norm2 q0') 0.999 else q0'
  let Tp := fun x => mobiusAdd ⟨-p.x, -p.y⟩ x
  let p0 := Tp p
  let q0 := Tp q
  norm2 (sub2 q0 p0)

/-- `while (d > π) d -= 2π` (used in `hyperbolicGeodesicPoints`). -/
def wrapGtPi (d : ℝ) : ℝ :=
  if h : d > Real.pi then wrapGtPi (d - 2 * Real.pi) else d
termination_by (⌈(d - Real.pi) / (2 * Real.pi)⌉).toNat
decreasing_by
  have hpi : (0 : ℝ) < 2 * Real.pi := by positivity
  have hx : 0 < (d - Real.pi) / (2 * Real.pi) := by
    apply div_pos _ hpi; linarith
  have h1 : (d - 2 * Real.pi - Real.pi) / (2 * Real.pi)
      = (d - Real.pi) / (2 * Real.pi) - 1 := by field_simp; ring
  have h2 : (1 : ℤ) ≤ ⌈(d - Real.pi) / (2 * Real.pi)⌉ := Int.ceil_pos.mpr hx
  have h3 : ⌈(d - 2 * Real.pi - Real.pi) / (2 * Real.pi)⌉
      = ⌈(d - Real.pi) / (2 * Real.pi)⌉ - 1 := by rw [h1, Int.ceil_sub_one]
  omega

/-- `while (d < -π) d += 2π` (used in `hyperbolicGeodesicPoints`). -/
def wrapLtNegPi (d : ℝ) : ℝ :=
  if h : d < -Real.pi then wrapLtNegPi (d + 2 * Real.pi) else d
termination_by (⌈(-Real.pi - d) / (2 * Real.pi)⌉).toNat
decreasing_by
  have hpi : (0 : ℝ) < 2 * Real.pi := by positivity
  have hx : 0 < (-Real.pi - d) / (2 * Real.pi) := by
    apply div_pos _ hpi; linarith
  have h1 : (-Real.pi - (d + 2 * Real.pi)) / (2 * Real.pi)
      = (-Real.pi - d) / (2 * Real.pi) - 1 := by field_simp; ring
  have h2 : (1 : ℤ) ≤ ⌈(-Real.pi - d) / (2 * Real.pi)⌉ := Int.ceil_pos.mpr hx
  have h3 : ⌈(-Real.pi - (d + 2 * Real.pi)) / (2 * Real.pi)⌉
      = ⌈(-Real.pi - d) / (2 * Real.pi)⌉ - 1 := by rw [h1, Int.ceil_sub_one]
  omega

/-- `while (a ≤ -π) a += 2π` (used in `normalizeAngle`). -/
def wrapLeNegPi (a : ℝ) : ℝ :=
  if h : a ≤ -Real.pi then wrapLeNegPi (a + 2 * Real.pi) else a
termination_by (⌈(-Real.pi - a) / (2 * Real.pi)⌉ + 1).toNat
decreasing_by
  have hpi : (0 : ℝ) < 2 * Real.pi := by positivity
  have hx : 0 ≤ (-Real.pi - a) / (2 * Real.pi) := by
    apply div_nonneg _ hpi.le; linarith
  have h1 : (-Real.pi - (a + 2 * Real.pi)) / (2 * Real.pi)
      = (-Real.pi - a) / (2 * Real.pi) - 1 := by field_simp; ring
  have h2 : (0 : ℤ) ≤ ⌈(-Real.pi - a) / (2 * Real.pi)⌉ := Int.ceil_nonneg hx
  have h3 : ⌈(-Real.pi - (a + 2 * Real.pi)) / (2 * Real.pi)⌉
      = ⌈(-Real.pi - a) / (2 * Real.pi)⌉ - 1 := by rw [h1, Int.ceil_sub_one]
  omega

/-- `hyperbolicGeodesicPoints` (default `n = 140` at call sites is passed
explicitly). -/
def hyperbolicGeodesicPoints (a b : Vec2) (n : ℕ) : List Vec2 :=
  let cross := a.x * b.y - a.y * b.x
  if |cross| < 1e-6 then
    (List.range (n + 1)).map fun (i : ℕ) =>
      let t := (i : ℝ) / n
      let p := add2 (mul2 a (1 - t)) (mul2 b t)
      let r2 := dot2 p p
      if r2 < 0.999 then p else mul2 (norm2 p) 0.999
  else
    let A1 := a.x
    let A2 := a.y
    let B1 := b.x
    let B2 := b.y
    let rhsA := (dot2 a a + 1) / 2
    let rhsB := (dot2 b b + 1) / 2
    let det := A1 * B2 - A2 * B1
    let cx := (rhsA * B2 - A2 * rhsB) / det
    let cy := (A1 * rhsB - rhsA * B1) / det
    let r := Real.sqrt ((a.x - cx) ^ 2 + (a.y - cy) ^ 2)
    let angA := atan2 (a.y - cy) (a.x - cx)
    let angB := atan2 (b.y - cy) (b.x - cx)
    let d := wrapLtNegPi (wrapGtPi (angB - angA))
    (List.range (n + 1)).map fun (i : ℕ) =>
      let t := (i : ℝ) / n
      let ang := angA + d * t
      let p : Vec2 := ⟨cx + r * Real.cos ang, cy + r * Real.sin ang⟩
      let r2 := dot2 p p
      if r2 < 0.999 then p else mul2 (norm2 p) 0.999

/-! ### Sphere helpers -/

/-- `sphereAdvance`: move along a great circle. -/
def sphereAdvance (p t : Vec3) (arc : ℝ) : Vec3 × Vec3 :=
  let cp := Real.cos arc
  let sp := Real.sin arc
  let p2 := add3 (mul3 p cp) (mul3 t sp)
  let t2 := add3 (mul3 t cp) (mul3 p (-sp))
  (norm3 p2, norm3 t2)

/-- `sphereTurn`: rotate the tangent `t` about the position axis `p`
(Rodrigues formula). -/
def sphereTurn (p t : Vec3) (ang : ℝ) : Vec3 :=
  let axis := p
  let cp := Real.cos ang
  let sp := Real.sin ang
  let axt := cross3 axis t
  norm3 (add3 (add3 (mul3 t cp) (mul3 axt sp)) (mul3 axis (dot3 axis t * (1 - cp))))

/-- `greatCirclePath` (default `n = 220` passed explicitly). -/
def greatCirclePath (p t : Vec3) (arcLen : ℝ) (n : ℕ) : List Vec2 :=
  (List.range (n + 1)).map fun (i : ℕ) =>
    let s := arcLen * i / n
    sphereToWorld2 (sphereAdvance p t s).1

/-- `sphereCirclePoints` (default `n = 260` passed explicitly). -/
def sphereCirclePoints (center : Vec3) (radiusArc : ℝ) (n : ℕ) : List Vec2 :=
  let u0 := cross3 center ⟨0, 0, 1⟩
  let u1 := if hypot3 u0 < 1e-6 then cross3 center ⟨0, 1, 0⟩ else u0
  let u := norm3 u1
  let v := norm3 (cross3 center u)
  let cr := Real.cos radiusArc
  let sr := Real.sin radiusArc
  (List.range (n + 1)).map fun (i : ℕ) =>
    let a := 2 * Real.pi * i / n
    let dir := add3 (mul3 u (Real.cos a)) (mul3 v (Real.sin a))
    sphereToWorld2 (norm3 (add3 (mul3 center cr) (mul3 dir sr)))

/-! ### Path builders -/

/-- `buildAdvancePath`. -/
def buildAdvancePath (state : EngineState) (dist : ℝ) : BuildResult :=
  match state.space with
  | .E =>
    let A := state.e_pos
    let dir : Vec2 := ⟨Real.cos state.e_theta, Real.sin state.e_theta⟩
    let B := add2 A (mul2 dir dist)
    ⟨[A, B], { state with e_pos := B }⟩
  | .H =>
    let p := state.h_pos
    let dirLocal : Vec2 := ⟨Real.cos state.h_theta, Real.sin state.h_theta⟩
    let d0 := hyperbolicDirectionAtOrigin p dirLocal
    let t := tanh (dist / 2)
    let step0 := mul2 d0 t
    let p2' := mobiusAdd p step0
    let p2 := if dot2 p2' p2' ≥ 0.9999 then mul2 (norm2 p2') 0.999 else p2'
    ⟨hyperbolicGeodesicPoints p p2 180, { state with h_pos := p2 }⟩
  | .S =>
    let path := greatCirclePath state.s_p state.s_t dist 260
    let pt := sphereAdvance state.s_p state.s_t dist
    ⟨path, { state with s_p := pt.1, s_t := pt.2 }⟩

/-- `buildTurnAnim` (default `duration = 0.35` passed explicitly). -/
def buildTurnAnim (state : EngineState) (deg duration : ℝ) : EngineState :=
  let ang := deg * Real.pi / 180
  match state.space with
  | .E =>
    { state with anim := { state.anim with
        active := true
        path := []
        i := 0
        t := 0
        addToTrace := false
        rotate := some ⟨state.e_theta, state.e_theta + ang, 0, duration⟩ } }
  | .H =>
    { state with anim := { state.anim with
        active := true
        path := []
        i := 0
        t := 0
        addToTrace := false
        rotate := some ⟨state.h_theta, state.h_theta + ang, 0, duration⟩ } }
  | .S =>
    { state with anim := { state.anim with
        active := true
        path := []
        i := 0
        t := 0
        addToTrace := false
        rotate := some ⟨0, ang, 0, duration⟩ } }

/-- `buildGeodesicTrace`. -/
def buildGeodesicTrace (state : EngineState) (length : ℝ) : TraceResult :=
  let r := buildAdvancePath state length
  ⟨r.path, r.next, "#16a34a"⟩

/-- `buildCircleTrace`. -/
def buildCircleTrace (state : EngineState) (radius : ℝ) : TraceResult :=
  match state.space with
  | .E =>
    let C := state.e_pos
    let n : ℕ := 260
    let pts := (List.range (n + 1)).map fun (i : ℕ) =>
      let a := 2 * Real.pi * i / n
      (⟨C.x + radius * Real.cos a, C.y + radius * Real.sin a⟩ : Vec2)
    let last := pts.getD (pts.length - 1) ⟨0, 0⟩
    ⟨pts, { state with e_pos := last }, "#2563eb"⟩
  | .H =>
    let p := state.h_pos
    let p2 := dot2 p p
    let t := tanh (radius / 2)
    let rho := t * (1 - p2) / (1 - p2 * t * t)
    let n : ℕ := 280
    let pts := (List.range (n + 1)).map fun (i : ℕ) =>
      let a := 2 * Real.pi * i / n
      let q : Vec2 := ⟨p.x + rho * Real.cos a, p.y + rho * Real.sin a⟩
      let r2 := dot2 q q
      if r2 < 0.999 then q else mul2 (norm2 q) 0.999
    let last := pts.getD (pts.length - 1) ⟨0, 0⟩
    ⟨pts, { state with h_pos := last }, "#2563eb"⟩
  | .S =>
    let pts := sphereCirclePoints state.s_p radius 320
    ⟨pts, state, "#2563eb"⟩

/-! ### Animation step -/

/-- The `while` loop inside `stepAnimation` that walks the polyline,
consuming the length budget `remaining`.  Returns the final
`(i, t, currentPos)`. -/
def walkLoop (path : List Vec2) (i : ℕ) (t remaining : ℝ) (currentPos : Vec2) :
    ℕ × ℝ × Vec2 :=
  if h : remaining > 0 ∧ i < path.length - 1 then
    let A := path.getD i ⟨0, 0⟩
    let B := path.getD (i + 1) ⟨0, 0⟩
    let seg := sub2 B A
    let segLen := hypot2 seg
    let left := segLen * (1 - t)
    if left ≥ remaining then
      (i, t + remaining / segLen, add2 A (mul2 seg (t + remaining / segLen)))
    else
      walkLoop path (i + 1) 0 (remaining - left) B
  else (i, t, currentPos)
termination_by path.length - i
decreasing_by omega

/-- `stepAnimation`. -/
def stepAnimation (state : EngineState) (dt : ℝ) : EngineState :=
  if !state.anim.active then state
  else
    match state.anim.rotate with
    | some r =>
      let elapsed := r.elapsed + dt
      let u := clamp (elapsed / r.duration) 0 1
      match state.space with
      | .E =>
        let theta := r.from' + (r.to' - r.from') * u
        if u ≥ 1 then
          { state with
            e_theta := theta
            anim := ⟨false, [], 0, 0, state.anim.speed, false, none⟩ }
        else
          { state with
            e_theta := theta
            anim := { state.anim with rotate := some { r with elapsed := elapsed } } }
      | .H =>
        let theta := r.from' + (r.to' - r.from') * u
        if u ≥ 1 then
          { state with
            h_theta := theta
            anim := ⟨false, [], 0, 0, state.anim.speed, false, none⟩ }
        else
          { state with
            h_theta := theta
            anim := { state.anim with rotate := some { r with elapsed := elapsed } } }
      | .S =>
        let dAng := r.to' * dt / r.duration
        let t2 := sphereTurn state.s_p state.s_t dAng
        if u ≥ 1 then
          { state with
            s_t := t2
            anim := ⟨false, [], 0, 0, state.anim.speed, false, none⟩ }
        else
          { state with
            s_t := t2
            anim := { state.anim with rotate := some { r with elapsed := elapsed } } }
    | none =>
      let path := state.anim.path
      if path.length < 2 then { state with anim := { state.anim with active := false } }
      else
        let res := walkLoop path state.anim.i state.anim.t (state.anim.speed * dt)
          (frogWorldPos state)
        let i := res.1
        let t := res.2.1
        let currentPos := res.2.2
        let nextState :=
          match state.space with
          | .E => { state with e_pos := currentPos }
          | .H => { state with h_pos := currentPos }
          | .S =>
            let r2 := currentPos.x * currentPos.x + currentPos.y * currentPos.y
            let z := Real.sqrt (max 0 (1 - r2))
            { state with s_p := norm3 ⟨currentPos.x, currentPos.y, z⟩ }
        let nextState2 :=
          if state.anim.addToTrace then
            match nextState.inProgress with
            | some poly =>
              match poly.pts.getLast? with
              | none =>
                { nextState with inProgress := some { poly with pts := poly.pts ++ [currentPos] } }
              | some last =>
                if hypot2 (sub2 currentPos last) > 0.002 then
                  { nextState with inProgress := some { poly with pts := poly.pts ++ [currentPos] } }
                else nextState
            | none => nextState
          else nextState
        let done := i ≥ path.length - 1
        if done then
          { nextState2 with anim := ⟨false, [], 0, 0, state.anim.speed, false, none⟩ }
        else
          { nextState2 with anim := { state.anim with i := i, t := t } }

/-- `startTracing`. -/
def startTracing (state : EngineState) (color : String) (width : ℝ) : EngineState :=
  { state with inProgress := some ⟨[frogWorldPos state], color, width⟩ }

/-- `finishTracing`. -/
def finishTracing (state : EngineState) : EngineState :=
  match state.inProgress with
  | none => state
  | some poly =>
    if poly.pts.length < 2 then { state with inProgress := none }
    else { state with shapes := state.shapes ++ [Shape.polyline poly], inProgress := none }

/-- `animatePath` (defaults `speed = 0.7`, `addToTrace = false` passed
explicitly). -/
def animatePath (state : EngineState) (path : List Vec2) (speed : ℝ)
    (addToTrace : Bool) : EngineState :=
  { state with anim := ⟨true, path, 0, 0, speed, addToTrace, none⟩ }

/-- `angleAt`. -/
def angleAt (space : SpaceId) (A B C : Vec2) : ℝ :=
  match space with
  | .E =>
    let u := norm2 (sub2 A B)
    let v := norm2 (sub2 C B)
    let d := clamp (dot2 u v) (-1) 1
    Real.arccos d
  | .H =>
    let ptsBA := hyperbolicGeodesicPoints B A 30
    let ptsBC := hyperbolicGeodesicPoints B C 30
    let d1 := norm2 (sub2 (ptsBA.getD 1 ⟨0, 0⟩) (ptsBA.getD 0 ⟨0, 0⟩))
    let d2 := norm2 (sub2 (ptsBC.getD 1 ⟨0, 0⟩) (ptsBC.getD 0 ⟨0, 0⟩))
    let d := clamp (dot2 d1 d2) (-1) 1
    Real.arccos d
  | .S =>
    let lift := fun (p : Vec2) =>
      let r2 := p.x * p.x + p.y * p.y
      let z := Real.sqrt (max 0 (1 - r2))
      norm3 ⟨p.x, p.y, z⟩
    let a3 := lift A
    let b3 := lift B
    let c3 := lift C
    let n1 := cross3 b3 a3
    let n2 := cross3 b3 c3
    let t1 := cross3 n1 b3
    let t2 := cross3 n2 b3
    let d := clamp (dot3 (norm3 t1) (norm3 t2)) (-1) 1
    Real.arccos d

/-- `pushLog`. -/
def pushLog (state : EngineState) (entry : LogEntry) : EngineState :=
  { state with log := state.log ++ [entry] }

/-! ### Exact geodesics and lines -/

/-- `normalizeAngle`: wrap into `(-π, π]`. -/
def normalizeAngle (a : ℝ) : ℝ := wrapGtPi (wrapLeNegPi a)

/-- `clampNum`. -/
def clampNum (v a b : ℝ) : ℝ := max a (min b v)

/-- Circle record of the hyperbolic line code (the source's `Circle`
type; renamed to avoid the Mathlib name). -/
structure HCircle where
  c : Vec2
  r : ℝ
  aP : ℝ
  aQ : ℝ

/-- `poincareCircleThroughPQ`. -/
def poincareCircleThroughPQ (p q : Vec2) : Option HCircle :=
  let eps : ℝ := 1e-10
  let cross := p.x * q.y - p.y * q.x
  if |cross| < 1e-7 then none
  else
    let pp := p.x * p.x + p.y * p.y
    let qq := q.x * q.x + q.y * q.y
    let b1 := (pp + 1) / 2
    let b2 := (qq + 1) / 2
    let det := p.x * q.y - p.y * q.x
    if |det| < eps then none
    else
      let cx := (b1 * q.y - p.y * b2) / det
      let cy := (p.x * b2 - b1 * q.x) / det
      let r2 := cx * cx + cy * cy - 1
      if r2 ≤ 1e-10 then none
      else
        let r := Real.sqrt r2
        let aP := atan2 (p.y - cy) (p.x - cx)
        let aQ := atan2 (q.y - cy) (q.x - cx)
        some ⟨⟨cx, cy⟩, r, aP, aQ⟩

/-- `circleCircleIntersections`. -/
def circleCircleIntersections (c1 : Vec2) (r1 : ℝ) (c2 : Vec2) (r2 : ℝ) : List Vec2 :=
  let dx := c2.x - c1.x
  let dy := c2.y - c1.y
  let d := Real.sqrt (dx ^ 2 + dy ^ 2)
  let eps : ℝ := 1e-10
  if d < eps then []
  else if d > r1 + r2 + 1e-9 then []
  else if d < |r1 - r2| - 1e-9 then []
  else
    let a := (r1 * r1 - r2 * r2 + d * d) / (2 * d)
    let h2 := r1 * r1 - a * a
    if h2 < -1e-9 then []
    else
      let h := Real.sqrt (max 0 h2)
      let xm := c1.x + a * dx / d
      let ym := c1.y + a * dy / d
      let rx := -dy * (h / d)
      let ry := dx * (h / d)
      let p1 : Vec2 := ⟨xm + rx, ym + ry⟩
      let p2 : Vec2 := ⟨xm - rx, ym - ry⟩
      if Real.sqrt ((p1.x - p2.x) ^ 2 + (p1.y - p2.y) ^ 2) < 1e-9 then [p1]
      else [p1, p2]

/-- `sampleArcThroughAngles` (the `mid1`/`mid2` locals of the source are
dead and omitted).  `Math.sign(d || 1)` is `-1` for negative `d` and `1`
otherwise. -/
def sampleArcThroughAngles (c : Vec2) (r aStart aEnd mustContain : ℝ)
    (steps : ℕ) : List Vec2 :=
  let d := normalizeAngle (aEnd - aStart)
  let sgn : ℝ := if d < 0 then -1 else 1
  let dAlt := d - sgn * (2 * Real.pi)
  let contains := fun (a from' delta : ℝ) =>
    let x := normalizeAngle (a - from')
    let L := normalizeAngle delta
    if L ≥ 0 then x ≥ 0 ∧ x ≤ L + 1e-9
    else x ≤ 0 ∧ x ≥ L - 1e-9
  let useDelta := if contains mustContain aStart d then d else dAlt
  (List.range (steps + 1)).map fun (i : ℕ) =>
    let t := (i : ℝ) / steps
    let ang := aStart + useDelta * t
    (⟨c.x + r * Real.cos ang, c.y + r * Real.sin ang⟩ : Vec2)

/-- `geodesicPoincareSegment`. -/
def geodesicPoincareSegment (p q : Vec2) (steps : ℕ) : List Vec2 :=
  let cross := p.x * q.y - p.y * q.x
  if |cross| < 1e-7 then [p, q]
  else
    match poincareCircleThroughPQ p q with
    | none => [p, q]
    | some circ =>
      let pts := sampleArcThroughAngles circ.c circ.r circ.aP circ.aQ circ.aP steps
      (pts.set 0 p).set (pts.length - 1) q

/-- `geodesicPoincareFullLine`. -/
def geodesicPoincareFullLine (p q : Vec2) (steps : ℕ) : List Vec2 :=
  let cross := p.x * q.y - p.y * q.x
  if |cross| < 1e-7 then
    let d := if Real.sqrt (p.x ^ 2 + p.y ^ 2) > 1e-8 then p else q
    let L := Real.sqrt (d.x ^ 2 + d.y ^ 2)
    let L' := if L = 0 then 1 else L
    let ux := d.x / L'
    let uy := d.y / L'
    [⟨-ux, -uy⟩, ⟨ux, uy⟩]
  else
    match poincareCircleThroughPQ p q with
    | none => [p, q]
    | some circ =>
      let inter := circleCircleIntersections circ.c circ.r ⟨0, 0⟩ 1
      if inter.length < 2 then [p, q]
      else
        let i0 := inter.getD 0 ⟨0, 0⟩
        let i1 := inter.getD 1 ⟨0, 0⟩
        let a1 := atan2 (i0.y - circ.c.y) (i0.x - circ.c.x)
        let a2 := atan2 (i1.y - circ.c.y) (i1.x - circ.c.x)
        let pts := sampleArcThroughAngles circ.c circ.r a1 a2 circ.aP steps
        let inside := pts.filter fun s => decide (s.x * s.x + s.y * s.y ≤ 1 + 1e-6)
        if inside.length ≥ 2 then inside else pts

/-! ### Sphere (upper hemisphere projected to disk) -/

def v3dot (a b : Vec3) : ℝ := a.x * b.x + a.y * b.y + a.z * b.z

def v3cross (a b : Vec3) : Vec3 :=
  ⟨a.y * b.z - a.z * b.y, a.z * b.x - a.x * b.z, a.x * b.y - a.y * b.x⟩

def v3norm (a : Vec3) : ℝ := Real.sqrt (a.x ^ 2 + a.y ^ 2 + a.z ^ 2)

def v3scale (a : Vec3) (s : ℝ) : Vec3 := ⟨a.x * s, a.y * s, a.z * s⟩

def v3add (a b : Vec3) : Vec3 := ⟨a.x + b.x, a.y + b.y, a.z + b.z⟩

/-- `v3unit`: divide by `v3norm(a) || 1`. -/
def v3unit (a : Vec3) : Vec3 :=
  let L0 := v3norm a
  let L := if L0 = 0 then 1 else L0
  ⟨a.x / L, a.y / L, a.z / L⟩

/-- `liftToUpperHemisphere` of the sphere section. -/
def liftToUpperHemisphere (p : Vec2) : Vec3 :=
  let r2 := p.x * p.x + p.y * p.y
  let z := Real.sqrt (max 0 (1 - r2))
  v3unit ⟨p.x, p.y, z⟩

/-- `geodesicSphereProjectedSegment`: slerp between the two lifts, keep
visible-hemisphere points, force exact endpoints. -/
def geodesicSphereProjectedSegment (p q : Vec2) (steps : ℕ) : List Vec2 :=
  let a := liftToUpperHemisphere p
  let b := liftToUpperHemisphere q
  let dot := clampNum (v3dot a b) (-1) 1
  let omega := Real.arccos dot
  if omega < 1e-8 then [p, q]
  else
    let sinOm := Real.sin omega
    let pts := ((List.range (steps + 1)).filterMap fun (i : ℕ) =>
      let t := (i : ℝ) / steps
      let s1 := Real.sin ((1 - t) * omega) / sinOm
      let s2 := Real.sin (t * omega) / sinOm
      let u := v3unit ⟨s1 * a.x + s2 * b.x, s1 * a.y + s2 * b.y, s1 * a.z + s2 * b.z⟩
      if u.z ≥ -1e-10 then some (⟨u.x, u.y⟩ : Vec2) else none)
    let pts2 := if pts.length ≠ 0 then (pts.set 0 p).set (pts.length - 1) q else pts
    if pts2.length ≥ 2 then pts2 else [p, q]

/-- `greatCircleProjectedClosed`: the full great circle through the two
lifts, sampled over the whole `2π` range and projected through both
hemispheres (no `z` filtering). -/
def greatCircleProjectedClosed (p q : Vec2) (steps : ℕ) : List Vec2 :=
  let a := liftToUpperHemisphere p
  let b := liftToUpperHemisphere q
  let n := v3cross a b
  let nL := v3norm n
  if nL < 1e-10 then geodesicSphereProjectedSegment p q steps
  else
    let nn := v3unit n
    let proj := v3scale nn (v3dot a nn)
    let u := v3unit (v3add a (v3scale proj (-1)))
    let v := v3unit (v3cross nn u)
    (List.range (steps + 1)).map fun (i : ℕ) =>
      let t := 2 * Real.pi * i / steps
      let X := v3unit ⟨u.x * Real.cos t + v.x * Real.sin t,
        u.y * Real.cos t + v.y * Real.sin t,
        u.z * Real.cos t + v.z * Real.sin t⟩
      (⟨X.x, X.y⟩ : Vec2)

/-- `geodesicBetween` (default `steps = 260` passed explicitly; dispatches
on the space). -/
def geodesicBetween (space : SpaceId) (p q : Vec2) (steps : ℕ) : List Vec2 :=
  match space with
  | .E => [p, q]
  | .H => geodesicPoincareSegment p q steps
  | .S => geodesicSphereProjectedSegment p q steps

/-- `geodesicLineThrough` (default `steps = 520` passed explicitly). -/
def geodesicLineThrough (space : SpaceId) (p q : Vec2) (steps : ℕ) : List Vec2 :=
  match space with
  | .E =>
    let dx := q.x - p.x
    let dy := q.y - p.y
    let L0 := Real.sqrt (dx ^ 2 + dy ^ 2)
    let L := if L0 = 0 then 1 else L0
    let ux := dx / L
    let uy := dy / L
    let big : ℝ := 5
    [⟨p.x - ux * big, p.y - uy * big⟩, ⟨p.x + ux * big, p.y + uy * big⟩]
  | .H => geodesicPoincareFullLine p q steps
  | .S => greatCircleProjectedClosed p q steps

/-- `hyperbolicParallelThroughPoint` (default `steps = 520` passed
explicitly; `whichEnd` is `0` or `1`). -/
def hyperbolicParallelThroughPoint (baseP baseQ through : Vec2)
    (whichEnd : Fin 2) (steps : ℕ) : List Vec2 :=
  let base := geodesicPoincareFullLine baseP baseQ 520
  if base.length < 2 then []
  else
    let A := base.getD 0 ⟨0, 0⟩
    let B := base.getD (base.length - 1) ⟨0, 0⟩
    let E := if whichEnd = 0 then A else B
    let ex := E.x
    let ey := E.y
    let px := through.x
    let py := through.y
    let rhs1 : ℝ := 1
    let rhs2 := (px * px + py * py + 1) / 2
    let det := ex * py - ey * px
    if |det| < 1e-10 then
      let L0 := Real.sqrt (px ^ 2 + py ^ 2)
      let L := if L0 = 0 then 1 else L0
      [⟨-px / L, -py / L⟩, ⟨px / L, py / L⟩]
    else
      let cx := (rhs1 * py - ey * rhs2) / det
      let cy := (ex * rhs2 - rhs1 * px) / det
      let r2 := cx * cx + cy * cy - 1
      if r2 ≤ 1e-10 then []
      else
        let r := Real.sqrt r2
        let inter := circleCircleIntersections ⟨cx, cy⟩ r ⟨0, 0⟩ 1
        if inter.length < 2 then []
        else
          let i0 := inter.getD 0 ⟨0, 0⟩
          let i1 := inter.getD 1 ⟨0, 0⟩
          let aE := atan2 (E.y - cy) (E.x - cx)
          let d0 := (i0.x - E.x) ^ 2 + (i0.y - E.y) ^ 2
          let other := if d0 > 1e-6 then i0 else i1
          let aO := atan2 (other.y - cy) (other.x - cx)
          let aP := atan2 (through.y - cy) (through.x - cx)
          sampleArcThroughAngles ⟨cx, cy⟩ r aE aO aP steps

/-- `poincareCircleFromPointDir`. -/
def poincareCircleFromPointDir (P u : Vec2) : Option (Vec2 × ℝ) :=
  let n : Vec2 := ⟨-u.y, u.x⟩
  let pn := P.x * n.x + P.y * n.y
  if |pn| < 1e-10 then none
  else
    let t := (1 - (P.x * P.x + P.y * P.y)) / (2 * pn)
    let c : Vec2 := ⟨P.x + t * n.x, P.y + t * n.y⟩
    let r := |t|
    if c.x * c.x + c.y * c.y ≤ 1 + 1e-9 then none
    else some (c, r)

/-- Orthogonality residual used by the perpendicular search. -/
def perpErr (baseC : Vec2) (baseR : ℝ) (c : Vec2) (r : ℝ) : ℝ :=
  |(c.x - baseC.x) ^ 2 + (c.y - baseC.y) ^ 2 - (r * r + baseR * baseR)|

/-- One candidate update of the angular search (`bestErr` starts as JS
`Infinity`, modelled by `none`). -/
def perpUpdate (baseC : Vec2) (baseR : ℝ) (P : Vec2)
    (best : ℝ × Option ℝ) (th : ℝ) : ℝ × Option ℝ :=
  match poincareCircleFromPointDir P ⟨Real.cos th, Real.sin th⟩ with
  | none => best
  | some (c, r) =>
    let err := perpErr baseC baseR c r
    match best.2 with
    | none => (th, some err)
    | some bestErr => if err < bestErr then (th, some err) else best

/-- `hyperbolicPerpUsingOrthogonality`: coarse sweep of 240 directions,
then 6 rounds of local refinement with shrinking step. -/
def hyperbolicPerpUsingOrthogonality (baseC : Vec2) (baseR : ℝ) (P : Vec2)
    (steps : ℕ) : List Vec2 :=
  let N : ℕ := 240
  let coarse := ((List.range N).map fun (i : ℕ) => 2 * Real.pi * i / N).foldl
    (perpUpdate baseC baseR P) (0, none)
  let refined := (List.range 6).foldl
    (fun best k =>
      let step := Real.pi / 180 * (10 / ((k : ℝ) + 1))
      ([-2, -1, 1, 2] : List ℝ).foldl
        (fun b s => perpUpdate baseC baseR P b (b.1 + s * step)) best)
    coarse
  let bestTheta := refined.1
  match poincareCircleFromPointDir P ⟨Real.cos bestTheta, Real.sin bestTheta⟩ with
  | none => []
  | some (c, r) =>
    let inter := circleCircleIntersections c r ⟨0, 0⟩ 1
    if inter.length < 2 then []
    else
      let i0 := inter.getD 0 ⟨0, 0⟩
      let i1 := inter.getD 1 ⟨0, 0⟩
      let a1 := atan2 (i0.y - c.y) (i0.x - c.x)
      let a2 := atan2 (i1.y - c.y) (i1.x - c.x)
      let aP := atan2 (P.y - c.y) (P.x - c.x)
      sampleArcThroughAngles c r a1 a2 aP steps

/-- `hyperbolicPerpNumeric` (diameter-base fallback). -/
def hyperbolicPerpNumeric (baseP baseQ P : Vec2) (steps : ℕ) : List Vec2 :=
  let base := geodesicPoincareFullLine baseP baseQ 520
  if base.length < 2 then []
  else
    let u : Vec2 := ⟨-P.y, P.x⟩
    match poincareCircleFromPointDir P u with
    | none => []
    | some (c, r) =>
      let inter := circleCircleIntersections c r ⟨0, 0⟩ 1
      if inter.length < 2 then []
      else
        let i0 := inter.getD 0 ⟨0, 0⟩
        let i1 := inter.getD 1 ⟨0, 0⟩
        let a1 := atan2 (i0.y - c.y) (i0.x - c.x)
        let a2 := atan2 (i1.y - c.y) (i1.x - c.x)
        let aP := atan2 (P.y - c.y) (P.x - c.x)
        sampleArcThroughAngles c r a1 a2 aP steps

/-- `hyperbolicPerpendicularThroughPoint` (default `steps = 520`). -/
def hyperbolicPerpendicularThroughPoint (baseP baseQ through : Vec2)
    (steps : ℕ) : List Vec2 :=
  match poincareCircleThroughPQ baseP baseQ with
  | none => hyperbolicPerpNumeric baseP baseQ through steps
  | some baseCirc => hyperbolicPerpUsingOrthogonality baseCirc.c baseCirc.r through steps

/-- `greatCircleFromNormalAndPoint`. -/
def greatCircleFromNormalAndPoint (n : Vec3) (through : Vec2) (steps : ℕ) : List Vec2 :=
  let P := liftToUpperHemisphere through
  let proj := v3scale n (v3dot P n)
  let u := v3unit (v3add P (v3scale proj (-1)))
  let v := v3unit (v3cross n u)
  (List.range (steps + 1)).filterMap fun (i : ℕ) =>
    let t := 2 * Real.pi * i / steps
    let X := v3unit ⟨u.x * Real.cos t + v.x * Real.sin t,
      u.y * Real.cos t + v.y * Real.sin t,
      u.z * Real.cos t + v.z * Real.sin t⟩
    if X.z ≥ -1e-10 then some (⟨X.x, X.y⟩ : Vec2) else none

/-- `sphericalPerpendicularGreatCircleThroughPoint` (default `steps = 520`). -/
def sphericalPerpendicularGreatCircleThroughPoint (baseP baseQ through : Vec2)
    (steps : ℕ) : List Vec2 :=
  let a := liftToUpperHemisphere baseP
  let b := liftToUpperHemisphere baseQ
  let nBase := v3unit (v3cross a b)
  let P := liftToUpperHemisphere through
  let nPerp := v3cross P nBase
  if v3norm nPerp < 1e-10 then
    let alt := v3cross P ⟨1, 0, 0⟩
    if v3norm alt < 1e-10 then []
    else greatCircleFromNormalAndPoint (v3unit alt) through steps
  else greatCircleFromNormalAndPoint (v3unit nPerp) through steps

/-! ### App-side helpers (`App.tsx`): hand measurement and the line
operation (parallel / perpendicular) click handler -/

/-- `Math.acosh` for arguments `≥ 1` (glossary of the design:
`arcosh(x) = ln(x + sqrt(x² − 1))`). -/
def arcosh (x : ℝ) : ℝ := Real.log (x + Real.sqrt (x ^ 2 - 1))

namespace App

/-- `clamp` of `App.tsx` (same body as the engine helper). -/
def clamp (v a b : ℝ) : ℝ := max a (min b v)

/-- `euclidLen`. -/
def euclidLen (a b : Vec2) : ℝ := Real.sqrt ((b.x - a.x) ^ 2 + (b.y - a.y) ^ 2)

/-- `liftSphereUpper` of `App.tsx` (no renormalization). -/
def liftSphereUpper (p : Vec2) : Vec3 :=
  let r2 := p.x * p.x + p.y * p.y
  ⟨p.x, p.y, Real.sqrt (max 0 (1 - r2))⟩

/-- `dot3` of `App.tsx`. -/
def dot3 (a b : Vec3) : ℝ := a.x * b.x + a.y * b.y + a.z * b.z

/-- `norm3` of `App.tsx`: the scalar norm `Math.hypot(x, y, z)`. -/
def norm3 (a : Vec3) : ℝ := Real.sqrt (a.x ^ 2 + a.y ^ 2 + a.z ^ 2)

/-- `distanceExact` of `App.tsx`.  The hyperbolic branch returns JS
`Infinity` when `(1 − ‖A‖²)(1 − ‖B‖²) ≤ 0`; the result type is `EReal`
so that this sentinel is `⊤`. -/
def distanceExact (space : SpaceId) (A B : Vec2) : EReal :=
  match space with
  | .E => (euclidLen A B : ℝ)
  | .H =>
    let a2 := A.x * A.x + A.y * A.y
    let b2 := B.x * B.x + B.y * B.y
    let dx := A.x - B.x
    let dy := A.y - B.y
    let d2 := dx * dx + dy * dy
    let denom := (1 - a2) * (1 - b2)
    if denom ≤ 0 then (⊤ : EReal)
    else
      let arg := 1 + 2 * d2 / denom
      (arcosh (max 1 arg) : ℝ)
  | .S =>
    let a := liftSphereUpper A
    let b := liftSphereUpper B
    let da0 := norm3 a
    let da := if da0 = 0 then 1 else da0
    let db0 := norm3 b
    let db := if db0 = 0 then 1 else db0
    let cos := clamp (dot3 a b / (da * db)) (-1) 1
    (Real.arccos cos : ℝ)

/-- `angleHand` of `App.tsx`. -/
def angleHand (space : SpaceId) (A B C : Vec2) : ℝ :=
  match space with
  | .S =>
    let b3 := liftSphereUpper B
    let a3 := liftSphereUpper A
    let c3 := liftSphereUpper C
    let projTangent := fun (p3 : Vec3) =>
      let d0 := dot3 b3 b3
      let d := if d0 = 0 then 1 else d0
      let k := dot3 p3 b3 / d
      let t : Vec3 := ⟨p3.x - k * b3.x, p3.y - k * b3.y, p3.z - k * b3.z⟩
      let n0 := norm3 t
      let n := if n0 = 0 then 1 else n0
      (⟨t.x / n, t.y / n, t.z / n⟩ : Vec3)
    let u := projTangent a3
    let v := projTangent c3
    let cos := clamp (dot3 u v) (-1) 1
    Real.arccos cos
  | _ =>
    let u : Vec2 := ⟨A.x - B.x, A.y - B.y⟩
    let v : Vec2 := ⟨C.x - B.x, C.y - B.y⟩
    let nu0 := Real.sqrt (u.x ^ 2 + u.y ^ 2)
    let nu := if nu0 = 0 then 1 else nu0
    let nv0 := Real.sqrt (v.x ^ 2 + v.y ^ 2)
    let nv := if nv0 = 0 then 1 else nv0
    let cos := clamp ((u.x * v.x + u.y * v.y) / (nu * nv)) (-1) 1
    Real.arccos cos

/-- `LineOpMode` of `App.tsx`. -/
inductive LineOpMode where
  | NONE
  | PARALLEL_0
  | PARALLEL_1
  | PERPENDICULAR
deriving DecidableEq

/-- `LineObject` of `App.tsx`. -/
structure LineObject where
  id : String
  pts : List Vec2
  baseP : Vec2
  baseQ : Vec2
  space : SpaceId

/-- Outcome of the line-operation click handler: either the fixed
user-facing failure message, or a new `LineObject`. -/
inductive LineOpOutcome where
  | rejected (message : String)
  | created (line : LineObject)

/-- The polyline-construction core of the parallel/perpendicular
interval callback in `onCanvasClick` (`App.tsx`): builds `pts` by space
and mode, rejects when fewer than two points result, otherwise creates
the stored line.  The clock-generated id `Op_${Date.now()}` is
abstracted as the parameter `newId`. -/
def lineOpBuild (space : SpaceId) (lineOpMode : LineOpMode) (base : LineObject)
    (w : Vec2) (newId : String) : LineOpOutcome :=
  let failMsg := "OPÉRATION IMPOSSIBLE À L\x27ENDROIT INDIQUÉ\n"
  let pts : List Vec2 :=
    match space with
    | .E =>
      let d : Vec2 := ⟨base.baseQ.x - base.baseP.x, base.baseQ.y - base.baseP.y⟩
      let L0 := Real.sqrt (d.x ^ 2 + d.y ^ 2)
      let L := if L0 = 0 then 1 else L0
      let u : Vec2 := ⟨d.x / L, d.y / L⟩
      let big : ℝ := 5
      if lineOpMode = .PERPENDICULAR then
        let perp : Vec2 := ⟨-u.y, u.x⟩
        [⟨w.x - perp.x * big, w.y - perp.y * big⟩, ⟨w.x + perp.x * big, w.y + perp.y * big⟩]
      else
        [⟨w.x - u.x * big, w.y - u.y * big⟩, ⟨w.x + u.x * big, w.y + u.y * big⟩]
    | .H =>
      if lineOpMode = .PERPENDICULAR then
        hyperbolicPerpendicularThroughPoint base.baseP base.baseQ w 560
      else
        let which : Fin 2 := if lineOpMode = .PARALLEL_0 then 0 else 1
        hyperbolicParallelThroughPoint base.baseP base.baseQ w which 560
    | .S =>
      if lineOpMode = .PERPENDICULAR then
        sphericalPerpendicularGreatCircleThroughPoint base.baseP base.baseQ w 560
      else []
  if space = .S ∧ lineOpMode ≠ .PERPENDICULAR then .rejected failMsg
  else if pts.length < 2 then .rejected failMsg
  else
    .created ⟨newId, pts, pts.getD 0 ⟨0, 0⟩, pts.getD (pts.length - 1) ⟨0, 0⟩, space⟩

end App

/-! ### Claim-side / verification helper definitions -/

/-- Claim-side formula (from the spec's words): the angle at vertex `B`
as arccos of the clamped dot product of the normalized raw direction
vectors `A − B` and `C − B`.  Used to compare the two kernel angle
implementations against the spec. -/
def euclidRawAngle (A B C : Vec2) : ℝ :=
  Real.arccos (clamp (dot2 (norm2 (sub2 A B)) (norm2 (sub2 C B))) (-1) 1)

/-- Repeatedly step the animation with the given frame times. -/
def stepMany (state : EngineState) (dts : List ℝ) : EngineState :=
  dts.foldl stepAnimation state

/-- The Euclidean engine state after a scheduled 90°/0.35 s turn from
heading `θ₀` has consumed cumulative frame time `c ≥ 0` (invariant state
of the turning machine, used to verify the rotation claims). -/
def turnStateE (θ₀ c : ℝ) : EngineState :=
  if c < 0.35 then
    { createInitialState .E with
        e_theta := θ₀ + Real.pi / 2 * (c / 0.35)
        anim := ⟨true, [], 0, 0, 0.6, false, some ⟨θ₀, θ₀ + Real.pi / 2, c, 0.35⟩⟩ }
  else
    { createInitialState .E with
        e_theta := θ₀ + Real.pi / 2
        anim := ⟨false, [], 0, 0, 0.6, false, none⟩ }

/-- Hyperbolic analogue of `turnStateE`. -/
def turnStateH (θ₀ c : ℝ) : EngineState :=
  if c < 0.35 then
    { createInitialState .H with
        h_theta := θ₀ + Real.pi / 2 * (c / 0.35)
        anim := ⟨true, [], 0, 0, 0.6, false, some ⟨θ₀, θ₀ + Real.pi / 2, c, 0.35⟩⟩ }
  else
    { createInitialState .H with
        h_theta := θ₀ + Real.pi / 2
        anim := ⟨false, [], 0, 0, 0.6, false, none⟩ }

/-- The 3-D sphere sample underlying index `i` of
`greatCircleProjectedClosed` (same basis construction as the source
function; the emitted 2-D point is its `x`/`y` projection). -/
def gcSample (p q : Vec2) (steps i : ℕ) : Vec3 :=
  let a := liftToUpperHemisphere p
  let b := liftToUpperHemisphere q
  let n := v3cross a b
  let nn := v3unit n
  let proj := v3scale nn (v3dot a nn)
  let u := v3unit (v3add a (v3scale proj (-1)))
  let v := v3unit (v3cross nn u)
  let t := 2 * Real.pi * i / steps
  v3unit ⟨u.x * Real.cos t + v.x * Real.sin t,
    u.y * Real.cos t + v.y * Real.sin t,
    u.z * Real.cos t + v.z * Real.sin t⟩

/-! ### Generic helper lemmas -/

theorem getD_range_map {α : Type*} (f : ℕ → α) (n i : ℕ) (d : α) (h : i < n) :
    ((List.range n).map f).getD i d = f i := by
  rw [List.getD_eq_getElem?_getD]
  simp [List.getElem?_map, List.getElem?_range, h]

theorem getD_mem_of_lt {α : Type*} (l : List α) (i : ℕ) (d : α)
    (h : i < l.length) : l.getD i d ∈ l := by
  rw [List.getD_eq_getElem?_getD, List.getElem?_eq_getElem h]
  exact List.getElem_mem h

theorem hypot2_nonneg (v : Vec2) : 0 ≤ hypot2 v := Real.sqrt_nonneg _

theorem hypot2_lt_one {v : Vec2} (h : dot2 v v < 1) : hypot2 v < 1 := by
  have hd : v.x ^ 2 + v.y ^ 2 < 1 := by
    have : dot2 v v = v.x ^ 2 + v.y ^ 2 := by simp [dot2]; ring
    linarith [this ▸ h]
  have := (Real.sqrt_lt' (y := 1) one_pos).mpr (by linarith [hd] : v.x ^ 2 + v.y ^ 2 < 1 ^ 2)
  simpa [hypot2] using this

theorem hypot2_mul2 (v : Vec2) {k : ℝ} (hk : 0 ≤ k) :
    hypot2 (mul2 v k) = k * hypot2 v := by
  simp only [hypot2, mul2]
  rw [show (v.x * k) ^ 2 + (v.y * k) ^ 2 = k ^ 2 * (v.x ^ 2 + v.y ^ 2) by ring,
    Real.sqrt_mul (sq_nonneg k), Real.sqrt_sq hk]

theorem hypot2_norm2 (v : Vec2) : hypot2 (norm2 v) = 1 := by
  rw [norm2]
  by_cases hn : hypot2 v > 0
  · rw [if_pos hn, hypot2_mul2 v (by positivity : (0:ℝ) ≤ 1 / hypot2 v)]
    field_simp
  · rw [if_neg hn]
    simp [hypot2]

theorem hypot2_clamped999 (v : Vec2) : hypot2 (mul2 (norm2 v) 0.999) < 1 := by
  rw [hypot2_mul2 _ (by norm_num : (0:ℝ) ≤ 0.999), hypot2_norm2]
  norm_num

/-! ### C8 -/

/-- C8: for points `p`, `q` collinear with the origin (cross product
within the `1e-7` tolerance), the hyperbolic geodesic segment
`geodesicBetween "H" p q` is exactly the straight chord `[p, q]`. -/
theorem C8_collinear_chord (p q : Vec2) (steps : ℕ)
    (h : |p.x * q.y - p.y * q.x| < 1e-7) :
    geodesicBetween .H p q steps = [p, q] := by
  simp only [geodesicBetween, geodesicPoincareSegment]
  rw [if_pos h]

/-- Witness for C8 at `p = (0,0)`, `q = (0.5, 0)`. -/
theorem C8_collinear_chord_witness :
    geodesicBetween .H ⟨0, 0⟩ ⟨0.5, 0⟩ 260 = [⟨0, 0⟩, ⟨0.5, 0⟩] :=
  C8_collinear_chord ⟨0, 0⟩ ⟨0.5, 0⟩ 260 (by norm_num)

/-! ### C9 -/

/-- C9: in the spherical model a parallel request (either branch) is
rejected with the fixed failure message; no polyline is built and no
line object is created.  (The kernel itself exports no spherical
parallel constructor: `hyperbolicParallelThroughPoint` is the only
parallel builder in `spaceEngine.ts`.) -/
theorem C9_spherical_parallel_rejected (base : App.LineObject) (w : Vec2)
    (newId : String) :
    App.lineOpBuild .S .PARALLEL_0 base w newId
        = .rejected "OPÉRATION IMPOSSIBLE À L\x27ENDROIT INDIQUÉ\n" ∧
      App.lineOpBuild .S .PARALLEL_1 base w newId
        = .rejected "OPÉRATION IMPOSSIBLE À L\x27ENDROIT INDIQUÉ\n" := by
  constructor <;> · rw [App.lineOpBuild]; simp

/-! ### C10 -/

/-- C10: in the spherical model `buildCircleTrace` returns the input
state unchanged as `next` (every field identical), while in the
Euclidean and hyperbolic models the position field moves to the last
sampled point of the returned path. -/
theorem C10_sphere_circle_keeps_state :
    (∀ (st : EngineState) (r : ℝ), st.space = .S →
        (buildCircleTrace st r).next = st) ∧
      (∀ (st : EngineState) (r : ℝ), st.space = .E →
        (buildCircleTrace st r).next =
          { st with e_pos := ((buildCircleTrace st r).path.getD ((buildCircleTrace st r).path.length - 1) ⟨0, 0⟩) }) ∧
      (∀ (st : EngineState) (r : ℝ), st.space = .H →
        (buildCircleTrace st r).next =
          { st with h_pos := ((buildCircleTrace st r).path.getD ((buildCircleTrace st r).path.length - 1) ⟨0, 0⟩) }) := by
  refine ⟨fun st r h => ?_, fun st r h => ?_, fun st r h => ?_⟩ <;>
    simp only [buildCircleTrace, h]

/-- Witness for C10 at the initial spherical state. -/
theorem C10_sphere_circle_keeps_state_witness :
    (buildCircleTrace (createInitialState .S) 1).next = createInitialState .S :=
  C10_sphere_circle_keeps_state.1 (createInitialState .S) 1 rfl

/-! ### C6 -/

/-- C6: every point produced by the hyperbolic path builders
(`hyperbolicGeodesicPoints`, the hyperbolic branch of
`buildAdvancePath`, the hyperbolic branch of `buildCircleTrace`) and the
stored next hyperbolic position lie strictly inside the unit disk: a
sample whose squared norm reaches the clamp threshold is rescaled to
norm `0.999`, so `‖h_pos‖ < 1` is preserved. -/
theorem C6_hyperbolic_disk_invariant :
    (∀ (a b : Vec2) (n : ℕ), ∀ p ∈ hyperbolicGeodesicPoints a b n, hypot2 p < 1) ∧
      (∀ (st : EngineState) (d : ℝ), st.space = .H →
        hypot2 (buildAdvancePath st d).next.h_pos < 1 ∧
          ∀ p ∈ (buildAdvancePath st d).path, hypot2 p < 1) ∧
      (∀ (st : EngineState) (r : ℝ), st.space = .H →
        hypot2 (buildCircleTrace st r).next.h_pos < 1 ∧
          ∀ p ∈ (buildCircleTrace st r).path, hypot2 p < 1) := by
  have hgeo : ∀ (a b : Vec2) (n : ℕ), ∀ p ∈ hyperbolicGeodesicPoints a b n,
      hypot2 p < 1 := by
    intro a b n p hp
    rw [hyperbolicGeodesicPoints] at hp
    split_ifs at hp with hc
    · rcases List.mem_map.mp hp with ⟨i, _, rfl⟩
      dsimp only
      split_ifs with h2
      · exact hypot2_lt_one (by norm_num at h2 ⊢; linarith)
      · exact hypot2_clamped999 _
    · rcases List.mem_map.mp hp with ⟨i, _, rfl⟩
      dsimp only
      split_ifs with h2
      · exact hypot2_lt_one (by norm_num at h2 ⊢; linarith)
      · exact hypot2_clamped999 _
  refine ⟨hgeo, fun st d h => ?_, fun st r h => ?_⟩
  · constructor
    · simp only [buildAdvancePath, h]
      split_ifs with h2
      · exact hypot2_clamped999 _
      · exact hypot2_lt_one (by push_neg at h2; norm_num at h2 ⊢; linarith)
    · intro p hp
      simp only [buildAdvancePath, h] at hp
      exact hgeo _ _ _ p hp
  · have hpts : ∀ p ∈ (buildCircleTrace st r).path, hypot2 p < 1 := by
      intro p hp
      simp only [buildCircleTrace, h] at hp
      rcases List.mem_map.mp hp with ⟨i, _, rfl⟩
      split_ifs with h2
      · exact hypot2_lt_one (by norm_num at h2 ⊢; linarith)
      · exact hypot2_clamped999 _
    refine ⟨?_, hpts⟩
    have hmem : (buildCircleTrace st r).next.h_pos
        = (buildCircleTrace st r).path.getD
            ((buildCircleTrace st r).path.length - 1) ⟨0, 0⟩ := by
      simp only [buildCircleTrace, h]
    have hlen : (buildCircleTrace st r).path.length = 281 := by
      simp only [buildCircleTrace, h, List.length_map, List.length_range]
    rw [hmem]
    apply hpts
    apply getD_mem_of_lt
    rw [hlen]
    norm_num

/-- Witness for C6: concrete hyperbolic advance from the initial state
keeps the stored position strictly inside the disk. -/
theorem C6_hyperbolic_disk_invariant_witness :
    (createInitialState .H).space = .H ∧
      hypot2 (buildAdvancePath (createInitialState .H) 1).next.h_pos < 1 :=
  ⟨rfl, (C6_hyperbolic_disk_invariant.2.1 (createInitialState .H) 1 rfl).1⟩

/-! ### C1 -/

theorem arcosh_five_thirds : arcosh (5/3) = Real.log 3 := by
  rw [arcosh, show ((5/3 : ℝ) ^ 2 - 1) = (4/3) ^ 2 by norm_num,
    Real.sqrt_sq (by norm_num : (0:ℝ) ≤ 4/3)]
  norm_num

theorem log_three_approx : |Real.log 3 - 1.0986| < 1e-4 := by
  have h13 : |(1/3 : ℝ)| < 1 := by rw [abs_of_pos] <;> norm_num
  have hser := Real.abs_log_sub_add_sum_range_le h13 10
  have hlog : Real.log (1 - 1/3) = Real.log 2 - Real.log 3 := by
    rw [show (1 - 1/3 : ℝ) = 2/3 by norm_num,
      Real.log_div (by norm_num) (by norm_num)]
  rw [hlog] at hser
  have hS1 : (0.405464 : ℝ) ≤ ∑ i ∈ Finset.range 10, (1/3 : ℝ) ^ (i + 1) / (i + 1) := by
    simp [Finset.sum_range_succ]
    norm_num
  have hS2 : (∑ i ∈ Finset.range 10, (1/3 : ℝ) ^ (i + 1) / (i + 1)) ≤ 0.4054644 := by
    simp [Finset.sum_range_succ]
    norm_num
  have hb : |(1/3 : ℝ)| ^ (10 + 1) / (1 - |1/3|) ≤ 0.00001 := by
    rw [abs_of_pos (by norm_num : (0:ℝ) < 1/3)]
    norm_num
  have h2a := Real.log_two_gt_d9
  have h2b := Real.log_two_lt_d9
  rw [abs_le] at hser
  rw [abs_sub_lt_iff]
  constructor <;> nlinarith [hser.1, hser.2]

/-- C1: for points strictly inside the unit disk, `distanceExact "H"`
returns `arcosh` of the clamped argument
`max 1 (1 + 2‖A−B‖² / ((1−‖A‖²)(1−‖B‖²)))`; at `A = (0,0)`,
`B = (0.5, 0)` the value is `arcosh (5/3) = log 3 ≈ 1.0986` within
`1e-4`. -/
theorem C1_hyperbolic_distance :
    (∀ A B : Vec2, A.x ^ 2 + A.y ^ 2 < 1 → B.x ^ 2 + B.y ^ 2 < 1 →
      App.distanceExact .H A B =
        ((arcosh (max 1 (1 + 2 * ((A.x - B.x) ^ 2 + (A.y - B.y) ^ 2) /
          ((1 - (A.x ^ 2 + A.y ^ 2)) * (1 - (B.x ^ 2 + B.y ^ 2))))) : ℝ) : EReal)) ∧
      App.distanceExact .H ⟨0, 0⟩ ⟨0.5, 0⟩ = ((arcosh (5/3) : ℝ) : EReal) ∧
      |arcosh (5/3) - 1.0986| < 1e-4 := by
  have hmain : ∀ A B : Vec2, A.x ^ 2 + A.y ^ 2 < 1 → B.x ^ 2 + B.y ^ 2 < 1 →
      App.distanceExact .H A B =
        ((arcosh (max 1 (1 + 2 * ((A.x - B.x) ^ 2 + (A.y - B.y) ^ 2) /
          ((1 - (A.x ^ 2 + A.y ^ 2)) * (1 - (B.x ^ 2 + B.y ^ 2))))) : ℝ) : EReal) := by
    intro A B hA hB
    have hden : 0 < (1 - (A.x * A.x + A.y * A.y)) * (1 - (B.x * B.x + B.y * B.y)) := by
      apply mul_pos <;> nlinarith
    simp only [App.distanceExact]
    rw [if_neg (by push_neg; exact hden)]
    rw [EReal.coe_eq_coe_iff]
    congr 2 <;> ring
  refine ⟨hmain, ?_, ?_⟩
  · rw [hmain ⟨0, 0⟩ ⟨0.5, 0⟩ (by norm_num) (by norm_num)]
    rw [EReal.coe_eq_coe_iff]
    norm_num
  · rw [arcosh_five_thirds]
    exact log_three_approx

/-- Witness for C1 at `A = (0,0)`, `B = (0.5, 0)`. -/
theorem C1_hyperbolic_distance_witness :
    App.distanceExact .H ⟨0, 0⟩ ⟨0.5, 0⟩ =
      ((arcosh (max 1 (1 + 2 * (((0:ℝ) - 0.5) ^ 2 + ((0:ℝ) - 0) ^ 2) /
        ((1 - ((0:ℝ) ^ 2 + (0:ℝ) ^ 2)) * (1 - ((0.5:ℝ) ^ 2 + (0:ℝ) ^ 2))))) : ℝ) : EReal) :=
  C1_hyperbolic_distance.1 ⟨0, 0⟩ ⟨0.5, 0⟩ (by norm_num) (by norm_num)

/-! ### C3 -/

theorem hypot2_one_zero : hypot2 ⟨1, 0⟩ = 1 := by
  rw [hypot2, show ((1:ℝ) ^ 2 + (0:ℝ) ^ 2) = 1 by norm_num, Real.sqrt_one]

theorem walkLoop_exhaust {speed dt : ℝ} (h : 1 < speed * dt) :
    walkLoop [⟨0, 0⟩, ⟨1, 0⟩] 0 0 (speed * dt) ⟨1, 0⟩ = (1, 0, (⟨1, 0⟩ : Vec2)) := by
  have hsub : sub2 ⟨1, 0⟩ ⟨0, 0⟩ = (⟨1, 0⟩ : Vec2) := by
    simp [sub2]
  rw [walkLoop, dif_pos ⟨by linarith, by norm_num⟩]
  simp only [List.getD, List.get?, Option.getD_some, hsub, hypot2_one_zero]
  rw [if_neg (by intro hc; nlinarith)]
  rw [walkLoop, dif_neg (by intro hc; simp at hc)]

/-- C3: from the Euclidean initial state (position `(0,0)`, heading 0),
`buildAdvancePath` with distance 1 produces exactly the path
`[(0,0), (1,0)]`; scheduling that path with `animatePath` and stepping
once with a length budget `speed · dt > 1` (enough to exhaust the whole
path) deactivates the animation and leaves the stored Euclidean
position at `(1,0)`. -/
theorem C3_euclidean_advance_step (speed dt : ℝ) (h : 1 < speed * dt) :
    (buildAdvancePath (createInitialState .E) 1).path = [⟨0, 0⟩, ⟨1, 0⟩] ∧
      (stepAnimation (animatePath (buildAdvancePath (createInitialState .E) 1).next
        (buildAdvancePath (createInitialState .E) 1).path speed false) dt).anim.active
        = false ∧
      (stepAnimation (animatePath (buildAdvancePath (createInitialState .E) 1).next
        (buildAdvancePath (createInitialState .E) 1).path speed false) dt).e_pos
        = ⟨1, 0⟩ := by
  have hB : add2 ⟨0, 0⟩ (mul2 ⟨Real.cos 0, Real.sin 0⟩ 1) = (⟨1, 0⟩ : Vec2) := by
    simp [add2, mul2]
  have hpath : (buildAdvancePath (createInitialState .E) 1).path = [⟨0, 0⟩, ⟨1, 0⟩] := by
    simp only [buildAdvancePath, createInitialState, hB]
  have hnext : (buildAdvancePath (createInitialState .E) 1).next
      = { createInitialState .E with e_pos := ⟨1, 0⟩ } := by
    simp only [buildAdvancePath, createInitialState, hB]
  refine ⟨hpath, ?_⟩
  rw [hpath, hnext]
  have hstep : stepAnimation (animatePath { createInitialState .E with e_pos := ⟨1, 0⟩ }
      [⟨0, 0⟩, ⟨1, 0⟩] speed false) dt
      = { createInitialState .E with
            e_pos := ⟨1, 0⟩
            anim := ⟨false, [], 0, 0, speed, false, none⟩ } := by
    rw [stepAnimation]
    simp only [animatePath, createInitialState, frogWorldPos, walkLoop_exhaust h]
    norm_num
  rw [hstep]
  exact ⟨rfl, rfl⟩

/-- Witness for C3 at `speed = 2`, `dt = 1`. -/
theorem C3_euclidean_advance_step_witness :
    (buildAdvancePath (createInitialState .E) 1).path = [⟨0, 0⟩, ⟨1, 0⟩] ∧
      (stepAnimation (animatePath (buildAdvancePath (createInitialState .E) 1).next
        (buildAdvancePath (createInitialState .E) 1).path 2 false) 1).anim.active
        = false ∧
      (stepAnimation (animatePath (buildAdvancePath (createInitialState .E) 1).next
        (buildAdvancePath (createInitialState .E) 1).path 2 false) 1).e_pos
        = ⟨1, 0⟩ :=
  C3_euclidean_advance_step 2 1 (by norm_num)

/-! ### C7 -/

theorem tanh_eq_real_tanh (x : ℝ) : tanh x = Real.tanh x := by
  rw [tanh, Real.tanh_eq_sinh_div_cosh, Real.sinh_eq, Real.cosh_eq]
  have hx : Real.exp x ≠ 0 := (Real.exp_pos x).ne'
  have h2 : Real.exp (2 * x) = Real.exp x * Real.exp x := by
    rw [two_mul, Real.exp_add]
  have hnx : Real.exp (-x) = (Real.exp x)⁻¹ := Real.exp_neg x
  rw [h2, hnx]
  field_simp

/-- C7 (amended): the hyperbolic branch of `buildCircleTrace` samples,
uniformly in angle, the Euclidean circle centered at `p = h_pos` with
radius `ρ = tanh(r/2)(1−‖p‖²)/(1−‖p‖² tanh(r/2)²)` — but each sample is
then passed through the disk clamp: it is kept only while its squared
norm stays below `0.999`, and is rescaled to norm `0.999` otherwise. -/
theorem C7_hyperbolic_circle_samples (st : EngineState) (r : ℝ) (h : st.space = .H) :
    (buildCircleTrace st r).path.length = 281 ∧
      ∀ i : ℕ, i < 281 →
        (buildCircleTrace st r).path.getD i ⟨0, 0⟩ =
          (let p := st.h_pos
           let rho := Real.tanh (r / 2) * (1 - dot2 p p) /
             (1 - dot2 p p * Real.tanh (r / 2) ^ 2)
           let a := 2 * Real.pi * i / 280
           let q : Vec2 := ⟨p.x + rho * Real.cos a, p.y + rho * Real.sin a⟩
           if dot2 q q < 0.999 then q else mul2 (norm2 q) 0.999) := by
  have hrho : tanh (r / 2) * (1 - dot2 st.h_pos st.h_pos) /
      (1 - dot2 st.h_pos st.h_pos * tanh (r / 2) * tanh (r / 2))
      = Real.tanh (r / 2) * (1 - dot2 st.h_pos st.h_pos) /
        (1 - dot2 st.h_pos st.h_pos * Real.tanh (r / 2) ^ 2) := by
    rw [tanh_eq_real_tanh]
    ring_nf
  constructor
  · simp only [buildCircleTrace, h, List.length_map, List.length_range]
  · intro i hi
    simp only [buildCircleTrace, h]
    rw [getD_range_map _ _ _ _ (by omega : i < 280 + 1)]
    simp only [hrho, Nat.cast_ofNat]

/-- Witness for C7 (amended) at the initial hyperbolic state, radius 1. -/
theorem C7_hyperbolic_circle_samples_witness :
    (buildCircleTrace (createInitialState .H) 1).path.length = 281 :=
  (C7_hyperbolic_circle_samples (createInitialState .H) 1 rfl).1

/-- Counterexample to C7 as stated: at `p = (0.9, 0)` with hyperbolic
radius 2 the circle formula gives `ρ > 0.1`, so the angle-0 sample
`(0.9 + ρ, 0)` has norm `≥ 1`; the code rescales it to norm `0.999`,
hence the emitted first path point is NOT the point
`p + ρ·(cos 0, sin 0)` of the claimed Euclidean circle. -/
theorem C7_counterexample :
    ¬ ((buildCircleTrace { createInitialState .H with h_pos := ⟨0.9, 0⟩ } 2).path.getD 0 ⟨0, 0⟩
      = ⟨0.9 + Real.tanh 1 * (1 - 0.81) / (1 - 0.81 * Real.tanh 1 ^ 2), 0⟩) := by
  have hb : Real.tanh 1 = (Real.exp 2 - 1) / (Real.exp 2 + 1) := by
    rw [← tanh_eq_real_tanh, tanh]
    norm_num
  have hexp2 : (7.389 : ℝ) < Real.exp 2 := by
    rw [show (2:ℝ) = 1 + 1 by norm_num, Real.exp_add]
    nlinarith [Real.exp_one_gt_d9]
  have ht07 : (0.7 : ℝ) ≤ Real.tanh 1 := by
    rw [hb, le_div_iff (by linarith)]
    linarith
  have ht1 : Real.tanh 1 < 1 := by
    rw [hb, div_lt_one (by linarith)]
    linarith
  have ht0 : (0 : ℝ) ≤ Real.tanh 1 := by linarith
  set t := Real.tanh 1 with htdef
  have hden0 : (0 : ℝ) < 1 - 0.81 * t ^ 2 := by nlinarith
  have hden1 : 1 - 0.81 * t ^ 2 ≤ 1 := by nlinarith
  set rho := t * (1 - 0.81) / (1 - 0.81 * t ^ 2) with hrhodef
  have hrho01 : (0.1 : ℝ) ≤ rho := by
    rw [hrhodef, le_div_iff hden0]
    nlinarith
  have hrho2 : rho ≤ 2 := by
    rw [hrhodef, div_le_iff hden0]
    nlinarith
  have hgd : (buildCircleTrace { createInitialState .H with h_pos := ⟨0.9, 0⟩ } 2).path.getD 0 ⟨0, 0⟩
      = mul2 (norm2 ⟨0.9 + rho, 0⟩) 0.999 := by
    have hmain := (C7_hyperbolic_circle_samples
      { createInitialState .H with h_pos := ⟨0.9, 0⟩ } 2 rfl).2 0 (by norm_num)
    rw [hmain]
    have h22 : (2 : ℝ) / 2 = 1 := by norm_num
    simp only [h22]
    have hdot : dot2 (⟨0.9, 0⟩ : Vec2) ⟨0.9, 0⟩ = 0.81 := by
      simp [dot2]
      norm_num
    simp only [hdot]
    rw [if_neg]
    · simp only [Nat.cast_zero, mul_zero, zero_div, Real.cos_zero, Real.sin_zero]
      congr 1 <;> simp [hrhodef] <;> ring
    · simp only [Nat.cast_zero, mul_zero, zero_div, Real.cos_zero, Real.sin_zero]
      intro hc
      rw [dot2] at hc
      simp only at hc
      nlinarith [hrho01]
  intro heq
  rw [hgd] at heq
  have h1 : hypot2 (mul2 (norm2 ⟨0.9 + rho, 0⟩) 0.999) = 0.999 := by
    rw [hypot2_mul2 _ (by norm_num : (0:ℝ) ≤ 0.999), hypot2_norm2]
    norm_num
  have h2 : hypot2 ⟨0.9 + rho, 0⟩ = 0.9 + rho := by
    rw [hypot2]
    simp only
    rw [show (0.9 + rho) ^ 2 + (0:ℝ) ^ 2 = (0.9 + rho) ^ 2 by ring,
      Real.sqrt_sq (by linarith)]
  rw [heq] at h1
  rw [h2] at h1
  linarith

/-! ### C5 -/

theorem lift_origin : liftToUpperHemisphere ⟨0, 0⟩ = ⟨0, 0, 1⟩ := by
  rw [liftToUpperHemisphere]
  have hz : Real.sqrt (max 0 (1 - ((0:ℝ) * 0 + 0 * 0))) = 1 := by
    rw [show (max 0 (1 - ((0:ℝ) * 0 + 0 * 0))) = 1 by norm_num, Real.sqrt_one]
  simp only [hz]
  rw [v3unit]
  have hn : v3norm ⟨0, 0, 1⟩ = 1 := by
    rw [v3norm, show ((0:ℝ) ^ 2 + 0 ^ 2 + 1 ^ 2) = 1 by norm_num, Real.sqrt_one]
  simp only [hn]
  norm_num

theorem lift_east : liftToUpperHemisphere ⟨1, 0⟩ = ⟨1, 0, 0⟩ := by
  rw [liftToUpperHemisphere]
  have hz : Real.sqrt (max 0 (1 - ((1:ℝ) * 1 + 0 * 0))) = 0 := by
    rw [show (max 0 (1 - ((1:ℝ) * 1 + 0 * 0))) = 0 by norm_num, Real.sqrt_zero]
  simp only [hz]
  rw [v3unit]
  have hn : v3norm ⟨1, 0, 0⟩ = 1 := by
    rw [v3norm, show ((1:ℝ) ^ 2 + 0 ^ 2 + 0 ^ 2) = 1 by norm_num, Real.sqrt_one]
  simp only [hn]
  norm_num

theorem lift_north : liftToUpperHemisphere ⟨0, 1⟩ = ⟨0, 1, 0⟩ := by
  rw [liftToUpperHemisphere]
  have hz : Real.sqrt (max 0 (1 - ((0:ℝ) * 0 + 1 * 1))) = 0 := by
    rw [show (max 0 (1 - ((0:ℝ) * 0 + 1 * 1))) = 0 by norm_num, Real.sqrt_zero]
  simp only [hz]
  rw [v3unit]
  have hn : v3norm ⟨0, 1, 0⟩ = 1 := by
    rw [v3norm, show ((0:ℝ) ^ 2 + 1 ^ 2 + 0 ^ 2) = 1 by norm_num, Real.sqrt_one]
  simp only [hn]
  norm_num

/-- C5 (amended): when the two hemisphere lifts are not treated as
parallel (cross-product norm at least the `1e-10` threshold) and
`steps ≥ 1`, `greatCircleProjectedClosed` emits every one of the
`steps + 1` samples of the full `2π` range with no `z` filtering — each
emitted 2-D point is the projection of the corresponding unit-sphere
sample `gcSample`, whatever the sign of its `z` — and the polyline is
closed (first point = last point).  The conjunction also records a
concrete input `p = (0,0)`, `q = (1,0)`, `steps = 4` whose sample 2 has
`z = -1 < 0` and is still included; for equatorial pairs (e.g.
`p = (1,0)`, `q = (0,1)`) every sample has `z = 0`, so a negative-`z`
point need not occur. -/
theorem C5_great_circle_closed (p q : Vec2) (steps : ℕ) (hs : 1 ≤ steps)
    (hn : ¬ (v3norm (v3cross (liftToUpperHemisphere p) (liftToUpperHemisphere q)) < 1e-10)) :
    ((greatCircleProjectedClosed p q steps).length = steps + 1 ∧
      (∀ i : ℕ, i < steps + 1 →
        (greatCircleProjectedClosed p q steps).getD i ⟨0, 0⟩ =
          ⟨(gcSample p q steps i).x, (gcSample p q steps i).y⟩) ∧
      (greatCircleProjectedClosed p q steps).getD 0 ⟨0, 0⟩ =
        (greatCircleProjectedClosed p q steps).getD steps ⟨0, 0⟩) ∧
      ((gcSample ⟨0, 0⟩ ⟨1, 0⟩ 4 2).z = -1 ∧
        (greatCircleProjectedClosed ⟨0, 0⟩ ⟨1, 0⟩ 4).getD 2 ⟨0, 0⟩ = ⟨0, 0⟩) := by
  have hgen : ∀ (p q : Vec2) (steps : ℕ), 1 ≤ steps →
      ¬ (v3norm (v3cross (liftToUpperHemisphere p) (liftToUpperHemisphere q)) < 1e-10) →
      ((greatCircleProjectedClosed p q steps).length = steps + 1 ∧
        ∀ i : ℕ, i < steps + 1 →
          (greatCircleProjectedClosed p q steps).getD i ⟨0, 0⟩ =
            ⟨(gcSample p q steps i).x, (gcSample p q steps i).y⟩) := by
    intro p q steps _ hn
    constructor
    · simp only [greatCircleProjectedClosed]
      rw [if_neg hn]
      simp
    · intro i hi
      simp only [greatCircleProjectedClosed]
      rw [if_neg hn, getD_range_map _ _ _ _ hi]
      simp only [gcSample]
  have hsample_eq : gcSample p q steps 0 = gcSample p q steps steps := by
    have hstep0 : 2 * Real.pi * (0 : ℕ) / steps = 0 := by
      simp
    have hstep1 : 2 * Real.pi * (steps : ℕ) / steps = 2 * Real.pi := by
      rw [mul_div_assoc, div_self (by positivity : ((steps : ℝ)) ≠ 0), mul_one]
    simp only [gcSample, hstep0, hstep1, Real.cos_zero, Real.sin_zero,
      Real.cos_two_pi, Real.sin_two_pi]
  have hsample2 : gcSample ⟨0, 0⟩ ⟨1, 0⟩ 4 2 = ⟨0, 0, -1⟩ := by
    rw [gcSample]
    simp only [lift_origin, lift_east]
    have hcross : v3cross ⟨0, 0, 1⟩ ⟨1, 0, 0⟩ = (⟨0, 1, 0⟩ : Vec3) := by
      simp [v3cross]
    have hu010 : v3unit ⟨0, 1, 0⟩ = (⟨0, 1, 0⟩ : Vec3) := by
      rw [v3unit]
      have hn : v3norm ⟨0, 1, 0⟩ = 1 := by
        rw [v3norm, show ((0:ℝ) ^ 2 + 1 ^ 2 + 0 ^ 2) = 1 by norm_num, Real.sqrt_one]
      simp only [hn]
      norm_num
    rw [hcross, hu010]
    have hd : v3dot ⟨0, 0, 1⟩ ⟨0, 1, 0⟩ = 0 := by simp [v3dot]
    rw [hd]
    have hsc : v3scale (⟨0, 1, 0⟩ : Vec3) 0 = (⟨0, 0, 0⟩ : Vec3) := by simp [v3scale]
    rw [hsc]
    have hadd : v3add ⟨0, 0, 1⟩ (v3scale ⟨0, 0, 0⟩ (-1)) = (⟨0, 0, 1⟩ : Vec3) := by
      simp [v3add, v3scale]
    rw [hadd]
    have hu001 : v3unit ⟨0, 0, 1⟩ = (⟨0, 0, 1⟩ : Vec3) := by
      rw [v3unit]
      have hn : v3norm ⟨0, 0, 1⟩ = 1 := by
        rw [v3norm, show ((0:ℝ) ^ 2 + 0 ^ 2 + 1 ^ 2) = 1 by norm_num, Real.sqrt_one]
      simp only [hn]
      norm_num
    rw [hu001]
    have hcross2 : v3cross ⟨0, 1, 0⟩ ⟨0, 0, 1⟩ = (⟨1, 0, 0⟩ : Vec3) := by
      simp [v3cross]
    rw [hcross2]
    have hu100 : v3unit ⟨1, 0, 0⟩ = (⟨1, 0, 0⟩ : Vec3) := by
      rw [v3unit]
      have hn : v3norm ⟨1, 0, 0⟩ = 1 := by
        rw [v3norm, show ((1:ℝ) ^ 2 + 0 ^ 2 + 0 ^ 2) = 1 by norm_num, Real.sqrt_one]
      simp only [hn]
      norm_num
    rw [hu100]
    have ht : 2 * Real.pi * ((2 : ℕ) : ℝ) / ((4 : ℕ) : ℝ) = Real.pi := by
      push_cast
      ring
    rw [ht]
    simp only [Real.cos_pi, Real.sin_pi]
    rw [show (⟨(0:ℝ) * -1 + 1 * 0, 0 * -1 + 0 * 0, 1 * -1 + 0 * 0⟩ : Vec3)
        = (⟨0, 0, -1⟩ : Vec3) by norm_num]
    rw [v3unit]
    have hn1 : v3norm ⟨0, 0, -1⟩ = 1 := by
      rw [v3norm, show ((0:ℝ) ^ 2 + 0 ^ 2 + (-1) ^ 2) = 1 by norm_num, Real.sqrt_one]
    simp only [hn1]
    norm_num
  have hneg : (gcSample ⟨0, 0⟩ ⟨1, 0⟩ 4 2).z = -1 := by rw [hsample2]
  have hn04 : ¬ (v3norm (v3cross (liftToUpperHemisphere ⟨0, 0⟩)
      (liftToUpperHemisphere ⟨1, 0⟩)) < 1e-10) := by
    rw [lift_origin, lift_east, show v3cross ⟨0, 0, 1⟩ ⟨1, 0, 0⟩ = (⟨0, 1, 0⟩ : Vec3)
      by simp [v3cross]]
    rw [v3norm, show ((0:ℝ) ^ 2 + 1 ^ 2 + 0 ^ 2) = 1 by norm_num, Real.sqrt_one]
    norm_num
  refine ⟨⟨(hgen p q steps hs hn).1, (hgen p q steps hs hn).2, ?_⟩, hneg, ?_⟩
  · rw [(hgen p q steps hs hn).2 0 (by omega), (hgen p q steps hs hn).2 steps (by omega),
      hsample_eq]
  · rw [(hgen ⟨0, 0⟩ ⟨1, 0⟩ 4 (by norm_num) hn04).2 2 (by norm_num), hsample2]

theorem crossEN : v3cross ⟨1, 0, 0⟩ ⟨0, 1, 0⟩ = (⟨0, 0, 1⟩ : Vec3) := by
  simp [v3cross]

theorem normZ1 : v3norm ⟨0, 0, 1⟩ = 1 := by
  rw [v3norm, show ((0:ℝ) ^ 2 + 0 ^ 2 + 1 ^ 2) = 1 by norm_num, Real.sqrt_one]

/-- Witness for C5 (amended) at `p = (1,0)`, `q = (0,1)`, `steps = 8`. -/
theorem C5_great_circle_closed_witness :
    (greatCircleProjectedClosed ⟨1, 0⟩ ⟨0, 1⟩ 8).length = 8 + 1 :=
  ((C5_great_circle_closed ⟨1, 0⟩ ⟨0, 1⟩ 8 (by norm_num)
    (by rw [lift_east, lift_north, crossEN, normZ1]; norm_num)).1).1

/-- Counterexample to C5 as stated: for `p = (1,0)`, `q = (0,1)` (valid
spherical points on the boundary circle) the lifts `(1,0,0)` and
`(0,1,0)` are not parallel, yet the sampled great circle is the equator:
every sphere sample has `z = 0`, so the returned polyline contains no
projection of a negative-`z` point, contradicting the claim's
"includes projections of sphere points with negative z". -/
theorem C5_counterexample :
    ¬ (v3norm (v3cross (liftToUpperHemisphere ⟨1, 0⟩) (liftToUpperHemisphere ⟨0, 1⟩)) < 1e-10)
      ∧ ¬ (∃ i : ℕ, i ≤ 8 ∧ (gcSample ⟨1, 0⟩ ⟨0, 1⟩ 8 i).z < 0) := by
  constructor
  · rw [lift_east, lift_north, crossEN, normZ1]
    norm_num
  · rintro ⟨i, _, hz⟩
    have hz0 : (gcSample ⟨1, 0⟩ ⟨0, 1⟩ 8 i).z = 0 := by
      rw [gcSample]
      simp only [lift_east, lift_north, crossEN]
      have hu001 : v3unit ⟨0, 0, 1⟩ = (⟨0, 0, 1⟩ : Vec3) := by
        rw [v3unit, normZ1]
        norm_num
      rw [hu001]
      have hd : v3dot ⟨1, 0, 0⟩ ⟨0, 0, 1⟩ = 0 := by simp [v3dot]
      rw [hd]
      have hadd : v3add ⟨1, 0, 0⟩ (v3scale (v3scale ⟨0, 0, 1⟩ 0) (-1))
          = (⟨1, 0, 0⟩ : Vec3) := by
        simp [v3add, v3scale]
      rw [hadd]
      have hu100 : v3unit ⟨1, 0, 0⟩ = (⟨1, 0, 0⟩ : Vec3) := by
        rw [v3unit]
        have hn : v3norm ⟨1, 0, 0⟩ = 1 := by
          rw [v3norm, show ((1:ℝ) ^ 2 + 0 ^ 2 + 0 ^ 2) = 1 by norm_num, Real.sqrt_one]
        simp only [hn]
        norm_num
      rw [hu100]
      have hcr : v3cross ⟨0, 0, 1⟩ ⟨1, 0, 0⟩ = (⟨0, 1, 0⟩ : Vec3) := by
        simp [v3cross]
      rw [hcr]
      have hu010 : v3unit ⟨0, 1, 0⟩ = (⟨0, 1, 0⟩ : Vec3) := by
        rw [v3unit]
        have hn : v3norm ⟨0, 1, 0⟩ = 1 := by
          rw [v3norm, show ((0:ℝ) ^ 2 + 1 ^ 2 + 0 ^ 2) = 1 by norm_num, Real.sqrt_one]
        simp only [hn]
        norm_num
      rw [hu010]
      rw [v3unit]
      simp
    linarith

/-! ### C2 -/

theorem norm3_e3 : norm3 ⟨0, 0, 1⟩ = ⟨0, 0, 1⟩ := by
  rw [norm3]
  have hn : hypot3 ⟨0, 0, 1⟩ = 1 := by
    rw [hypot3, show ((0:ℝ) ^ 2 + 0 ^ 2 + 1 ^ 2) = 1 by norm_num, Real.sqrt_one]
  simp only [hn]
  norm_num [mul3]

theorem norm3_e1 : norm3 ⟨1, 0, 0⟩ = ⟨1, 0, 0⟩ := by
  rw [norm3]
  have hn : hypot3 ⟨1, 0, 0⟩ = 1 := by
    rw [hypot3, show ((1:ℝ) ^ 2 + 0 ^ 2 + 0 ^ 2) = 1 by norm_num, Real.sqrt_one]
  simp only [hn]
  norm_num [mul3]

/-- Rotating a horizontal tangent about the north-pole axis adds the
angle. -/
theorem sphereTurn_north (θ φ : ℝ) :
    sphereTurn ⟨0, 0, 1⟩ ⟨Real.cos θ, Real.sin θ, 0⟩ φ
      = ⟨Real.cos (θ + φ), Real.sin (θ + φ), 0⟩ := by
  rw [sphereTurn]
  have hinner : add3 (add3 (mul3 ⟨Real.cos θ, Real.sin θ, 0⟩ (Real.cos φ))
      (mul3 (cross3 ⟨0, 0, 1⟩ ⟨Real.cos θ, Real.sin θ, 0⟩) (Real.sin φ)))
      (mul3 ⟨0, 0, 1⟩ (dot3 ⟨0, 0, 1⟩ ⟨Real.cos θ, Real.sin θ, 0⟩ * (1 - Real.cos φ)))
      = (⟨Real.cos (θ + φ), Real.sin (θ + φ), 0⟩ : Vec3) := by
    simp only [add3, mul3, cross3, dot3, Real.cos_add, Real.sin_add, Vec3.mk.injEq]
    refine ⟨by ring, by ring, by ring⟩
  simp only [hinner]
  rw [norm3]
  have hn : hypot3 ⟨Real.cos (θ + φ), Real.sin (θ + φ), 0⟩ = 1 := by
    rw [hypot3, show (Real.cos (θ + φ) ^ 2 + Real.sin (θ + φ) ^ 2 + (0:ℝ) ^ 2)
      = Real.sin (θ + φ) ^ 2 + Real.cos (θ + φ) ^ 2 by ring,
      Real.sin_sq_add_cos_sq, Real.sqrt_one]
  simp only [hn]
  norm_num [mul3]

theorem buildTurn_E (θ₀ : ℝ) :
    buildTurnAnim { createInitialState .E with e_theta := θ₀ } 90 0.35
      = turnStateE θ₀ 0 := by
  rw [buildTurnAnim, turnStateE, if_pos (by norm_num : (0:ℝ) < 0.35)]
  simp only [createInitialState]
  norm_num
  ring

theorem buildTurn_H (θ₀ : ℝ) :
    buildTurnAnim { createInitialState .H with h_theta := θ₀ } 90 0.35
      = turnStateH θ₀ 0 := by
  rw [buildTurnAnim, turnStateH, if_pos (by norm_num : (0:ℝ) < 0.35)]
  simp only [createInitialState]
  norm_num
  ring

theorem stepTurnE (θ₀ c dt : ℝ) (hc : 0 ≤ c) (hdt : 0 ≤ dt) :
    stepAnimation (turnStateE θ₀ c) dt = turnStateE θ₀ (c + dt) := by
  by_cases h1 : c < 0.35
  · rw [turnStateE, if_pos h1, stepAnimation,
      if_neg (by simp [createInitialState])]
    simp only [createInitialState]
    by_cases h2 : c + dt < 0.35
    · have hu : clamp ((c + dt) / 0.35) 0 1 = (c + dt) / 0.35 := by
        rw [clamp, min_eq_right (by rw [div_le_one (by norm_num)]; linarith),
          max_eq_right (by positivity)]
      simp only [hu]
      rw [if_neg (by rw [ge_iff_le, le_div_iff (by norm_num)]; intro hcon; linarith)]
      rw [turnStateE, if_pos h2]
      simp only [createInitialState]
      norm_num
    · have hu : clamp ((c + dt) / 0.35) 0 1 = 1 := by
        rw [clamp, min_eq_left (by rw [le_div_iff (by norm_num)]; linarith),
          max_eq_right (by norm_num)]
      simp only [hu]
      rw [if_pos (by norm_num : (1:ℝ) ≥ 1)]
      rw [turnStateE, if_neg h2]
      simp only [createInitialState]
      norm_num
  · rw [turnStateE, if_neg h1, stepAnimation,
      if_pos (by simp [createInitialState])]
    rw [turnStateE, if_neg (by intro hcon; apply h1; linarith)]

theorem stepTurnH (θ₀ c dt : ℝ) (hc : 0 ≤ c) (hdt : 0 ≤ dt) :
    stepAnimation (turnStateH θ₀ c) dt = turnStateH θ₀ (c + dt) := by
  by_cases h1 : c < 0.35
  · rw [turnStateH, if_pos h1, stepAnimation,
      if_neg (by simp [createInitialState])]
    simp only [createInitialState]
    by_cases h2 : c + dt < 0.35
    · have hu : clamp ((c + dt) / 0.35) 0 1 = (c + dt) / 0.35 := by
        rw [clamp, min_eq_right (by rw [div_le_one (by norm_num)]; linarith),
          max_eq_right (by positivity)]
      simp only [hu]
      rw [if_neg (by rw [ge_iff_le, le_div_iff (by norm_num)]; intro hcon; linarith)]
      rw [turnStateH, if_pos h2]
      simp only [createInitialState]
      norm_num
    · have hu : clamp ((c + dt) / 0.35) 0 1 = 1 := by
        rw [clamp, min_eq_left (by rw [le_div_iff (by norm_num)]; linarith),
          max_eq_right (by norm_num)]
      simp only [hu]
      rw [if_pos (by norm_num : (1:ℝ) ≥ 1)]
      rw [turnStateH, if_neg h2]
      simp only [createInitialState]
      norm_num
  · rw [turnStateH, if_neg h1, stepAnimation,
      if_pos (by simp [createInitialState])]
    rw [turnStateH, if_neg (by intro hcon; apply h1; linarith)]

theorem stepManyTurnE (dts : List ℝ) (θ₀ : ℝ) :
    ∀ c, 0 ≤ c → (∀ d ∈ dts, 0 ≤ d) →
      stepMany (turnStateE θ₀ c) dts = turnStateE θ₀ (c + dts.sum) := by
  induction dts with
  | nil => intro c _ _; simp [stepMany]
  | cons d tl ih =>
    intro c hc hall
    rw [stepMany, List.foldl_cons]
    have hd : 0 ≤ d := hall d (List.mem_cons_self d _)
    rw [stepTurnE θ₀ c d hc hd]
    have := ih (c + d) (by linarith) (fun x hx => hall x (List.mem_cons_of_mem d hx))
    rw [stepMany] at this
    rw [this, List.sum_cons]
    ring_nf

theorem stepManyTurnH (dts : List ℝ) (θ₀ : ℝ) :
    ∀ c, 0 ≤ c → (∀ d ∈ dts, 0 ≤ d) →
      stepMany (turnStateH θ₀ c) dts = turnStateH θ₀ (c + dts.sum) := by
  induction dts with
  | nil => intro c _ _; simp [stepMany]
  | cons d tl ih =>
    intro c hc hall
    rw [stepMany, List.foldl_cons]
    have hd : 0 ≤ d := hall d (List.mem_cons_self d _)
    rw [stepTurnH θ₀ c d hc hd]
    have := ih (c + d) (by linarith) (fun x hx => hall x (List.mem_cons_of_mem d hx))
    rw [stepMany] at this
    rw [this, List.sum_cons]
    ring_nf

theorem turnStateE_theta_le (θ₀ c : ℝ) (hc : 0 ≤ c) :
    (turnStateE θ₀ c).e_theta ≤ θ₀ + Real.pi / 2 := by
  rw [turnStateE]
  split_ifs with h
  · simp only [createInitialState]
    have h1 : c / 0.35 ≤ 1 := by rw [div_le_one (by norm_num)]; linarith
    nlinarith [Real.pi_pos]
  · simp only [createInitialState]
    exact le_refl _

theorem turnStateH_theta_le (θ₀ c : ℝ) (hc : 0 ≤ c) :
    (turnStateH θ₀ c).h_theta ≤ θ₀ + Real.pi / 2 := by
  rw [turnStateH]
  split_ifs with h
  · simp only [createInitialState]
    have h1 : c / 0.35 ≤ 1 := by rw [div_le_one (by norm_num)]; linarith
    nlinarith [Real.pi_pos]
  · simp only [createInitialState]
    exact le_refl _

/-- C2 (amended): scheduling a 90°/0.35 s turn and stepping with
nonnegative frame times converges exactly in the Euclidean and
hyperbolic models — once the cumulative time reaches 0.35 s the heading
is exactly the initial heading plus `π/2` and the job is inactive, and
no intermediate state ever exceeds the target heading.  In the
spherical model each frame instead rotates the tangent about the
position axis by the unclamped increment `to · dt / duration`. -/
theorem C2_turn_convergence (θ₀ : ℝ) (dts : List ℝ) (hall : ∀ d ∈ dts, 0 ≤ d) :
    ((0.35 ≤ dts.sum →
        (stepMany (buildTurnAnim { createInitialState .E with e_theta := θ₀ } 90 0.35)
            dts).e_theta = θ₀ + Real.pi / 2 ∧
          (stepMany (buildTurnAnim { createInitialState .E with e_theta := θ₀ } 90 0.35)
            dts).anim.active = false) ∧
      ∀ pre suf, dts = pre ++ suf →
        (stepMany (buildTurnAnim { createInitialState .E with e_theta := θ₀ } 90 0.35)
          pre).e_theta ≤ θ₀ + Real.pi / 2) ∧
      ((0.35 ≤ dts.sum →
        (stepMany (buildTurnAnim { createInitialState .H with h_theta := θ₀ } 90 0.35)
            dts).h_theta = θ₀ + Real.pi / 2 ∧
          (stepMany (buildTurnAnim { createInitialState .H with h_theta := θ₀ } 90 0.35)
            dts).anim.active = false) ∧
      ∀ pre suf, dts = pre ++ suf →
        (stepMany (buildTurnAnim { createInitialState .H with h_theta := θ₀ } 90 0.35)
          pre).h_theta ≤ θ₀ + Real.pi / 2) ∧
      (∀ (s : EngineState) (dt : ℝ) (r : Rotate), s.space = .S →
        s.anim.active = true → s.anim.rotate = some r →
        (stepAnimation s dt).s_t = sphereTurn s.s_p s.s_t (r.to' * dt / r.duration)) := by
  refine ⟨⟨fun hsum => ?_, fun pre suf heq => ?_⟩, ⟨fun hsum => ?_, fun pre suf heq => ?_⟩,
    fun s dt r hS hact hrot => ?_⟩
  · rw [buildTurn_E, stepManyTurnE dts θ₀ 0 le_rfl hall, zero_add,
      turnStateE, if_neg (by linarith)]
    exact ⟨rfl, rfl⟩
  · subst heq
    have hpre : ∀ d ∈ pre, 0 ≤ d := fun d hd => hall d (List.mem_append_left suf hd)
    rw [buildTurn_E, stepManyTurnE pre θ₀ 0 le_rfl hpre, zero_add]
    exact turnStateE_theta_le θ₀ pre.sum (List.sum_nonneg hpre)
  · rw [buildTurn_H, stepManyTurnH dts θ₀ 0 le_rfl hall, zero_add,
      turnStateH, if_neg (by linarith)]
    exact ⟨rfl, rfl⟩
  · subst heq
    have hpre : ∀ d ∈ pre, 0 ≤ d := fun d hd => hall d (List.mem_append_left suf hd)
    rw [buildTurn_H, stepManyTurnH pre θ₀ 0 le_rfl hpre, zero_add]
    exact turnStateH_theta_le θ₀ pre.sum (List.sum_nonneg hpre)
  · rw [stepAnimation, if_neg (by simp [hact])]
    simp only [hrot, hS]
    split_ifs <;> rfl

/-- Witness for C2 (amended): two 0.2 s frames (cumulative 0.4 s ≥ 0.35 s)
drive the Euclidean heading exactly to `0 + π/2`. -/
theorem C2_turn_convergence_witness :
    (∀ d ∈ ([0.2, 0.2] : List ℝ), 0 ≤ d) ∧ (0.35 : ℝ) ≤ ([0.2, 0.2] : List ℝ).sum ∧
      (stepMany (buildTurnAnim { createInitialState .E with e_theta := 0 } 90 0.35)
        [0.2, 0.2]).e_theta = 0 + Real.pi / 2 := by
  have hall : ∀ d ∈ ([0.2, 0.2] : List ℝ), 0 ≤ d := by
    intro d hd
    simp only [List.mem_cons, List.not_mem_nil, or_false] at hd
    rcases hd with h | h <;> rw [h] <;> norm_num
  have hsum : (0.35 : ℝ) ≤ ([0.2, 0.2] : List ℝ).sum := by
    norm_num [List.sum_cons]
  exact ⟨hall, hsum, ((C2_turn_convergence 0 [0.2, 0.2] hall).1.1 hsum).1⟩

theorem cos_4pi7_lt : Real.cos (4 * Real.pi / 7) < -(1e-6) := by
  have h1 : Real.cos (4 * Real.pi / 7) = -Real.cos (3 * Real.pi / 7) := by
    rw [show 4 * Real.pi / 7 = Real.pi - 3 * Real.pi / 7 by ring, Real.cos_pi_sub]
  have h2 : Real.cos (3 * Real.pi / 7) = Real.sin (Real.pi / 14) := by
    rw [show (3 : ℝ) * Real.pi / 7 = Real.pi / 2 - Real.pi / 14 by ring,
      Real.cos_pi_div_two_sub]
  have h3 : (1 : ℝ) / 7 ≤ Real.sin (Real.pi / 14) := by
    have hj := Real.mul_le_sin (x := Real.pi / 14) (by positivity)
      (by nlinarith [Real.pi_pos])
    have heq : 2 / Real.pi * (Real.pi / 14) = 1 / 7 := by
      field_simp
      ring
    linarith [heq ▸ hj]
  rw [h1, h2]
  norm_num
  linarith

/-- Counterexample to C2 as stated: in the spherical model two 0.2 s
frames (cumulative 0.4 s ≥ 0.35 s) finish the scheduled 90°/0.35 s turn
with the tangent rotated by `2 · (π/2)(0.2/0.35) = 4π/7 > π/2`: the
final tangent is `(cos 4π/7, sin 4π/7, 0)`, whose x-component is below
`-1e-6`, while a final heading within `1e-6` of the `π/2` target would
force `|x| = |sin δ| ≤ 1e-6`.  The per-frame rotation `to · dt /
duration` is not clamped to the remaining angle, so the turn
overshoots. -/
theorem C2_counterexample :
    (stepAnimation (stepAnimation (buildTurnAnim (createInitialState .S) 90 0.35) 0.2)
        0.2).anim.active = false ∧
      (stepAnimation (stepAnimation (buildTurnAnim (createInitialState .S) 90 0.35) 0.2)
        0.2).s_t = ⟨Real.cos (4 * Real.pi / 7), Real.sin (4 * Real.pi / 7), 0⟩ ∧
      Real.cos (4 * Real.pi / 7) < -(1e-6) := by
  have hang : 90 * Real.pi / 180 * 0.2 / 0.35 = 2 * Real.pi / 7 := by
    rw [show (0.2 : ℝ) = 1 / 5 by norm_num, show (0.35 : ℝ) = 7 / 20 by norm_num]
    ring
  have h0 : buildTurnAnim (createInitialState .S) 90 0.35
      = { createInitialState .S with
            anim := ⟨true, [], 0, 0, 0.6, false, some ⟨0, 90 * Real.pi / 180, 0, 0.35⟩⟩ } := by
    rw [buildTurnAnim]
    simp only [createInitialState]
  have hT1 : sphereTurn (norm3 ⟨0, 0, 1⟩) (norm3 ⟨1, 0, 0⟩) (90 * Real.pi / 180 * 0.2 / 0.35)
      = ⟨Real.cos (2 * Real.pi / 7), Real.sin (2 * Real.pi / 7), 0⟩ := by
    rw [norm3_e3, norm3_e1, hang,
      show (⟨1, 0, 0⟩ : Vec3) = ⟨Real.cos 0, Real.sin 0, 0⟩ by norm_num,
      sphereTurn_north, zero_add]
  have hT2 : sphereTurn (norm3 ⟨0, 0, 1⟩)
      (⟨Real.cos (2 * Real.pi / 7), Real.sin (2 * Real.pi / 7), 0⟩ : Vec3)
      (90 * Real.pi / 180 * 0.2 / 0.35)
      = ⟨Real.cos (4 * Real.pi / 7), Real.sin (4 * Real.pi / 7), 0⟩ := by
    rw [norm3_e3, hang, sphereTurn_north,
      show 2 * Real.pi / 7 + 2 * Real.pi / 7 = 4 * Real.pi / 7 by ring]
  have h1 : stepAnimation { createInitialState .S with
        anim := ⟨true, [], 0, 0, 0.6, false, some ⟨0, 90 * Real.pi / 180, 0, 0.35⟩⟩ } 0.2
      = { createInitialState .S with
            s_t := ⟨Real.cos (2 * Real.pi / 7), Real.sin (2 * Real.pi / 7), 0⟩
            anim := ⟨true, [], 0, 0, 0.6, false,
              some ⟨0, 90 * Real.pi / 180, 0 + 0.2, 0.35⟩⟩ } := by
    rw [stepAnimation, if_neg (by simp)]
    simp only [createInitialState]
    rw [if_neg (by rw [clamp]; norm_num), hT1]
  have h2 : stepAnimation { createInitialState .S with
        s_t := ⟨Real.cos (2 * Real.pi / 7), Real.sin (2 * Real.pi / 7), 0⟩
        anim := ⟨true, [], 0, 0, 0.6, false,
          some ⟨0, 90 * Real.pi / 180, 0 + 0.2, 0.35⟩⟩ } 0.2
      = { createInitialState .S with
            s_t := ⟨Real.cos (4 * Real.pi / 7), Real.sin (4 * Real.pi / 7), 0⟩
            anim := ⟨false, [], 0, 0, 0.6, false, none⟩ } := by
    rw [stepAnimation, if_neg (by simp)]
    simp only [createInitialState]
    rw [if_pos (by rw [clamp]; norm_num), hT2]
  rw [h0, h1, h2]
  exact ⟨rfl, rfl, cos_4pi7_lt⟩

/-! ### C4 -/

/-- Generic evaluation of the collinear (chord) branch of
`hyperbolicGeodesicPoints` at one index. -/
theorem hgp_chord_getD (a b : Vec2) (n : ℕ) (h : |a.x * b.y - a.y * b.x| < 1e-6)
    (i : ℕ) (hi : i < n + 1) :
    (hyperbolicGeodesicPoints a b n).getD i ⟨0, 0⟩ =
      (let t := (i : ℝ) / n
       let p := add2 (mul2 a (1 - t)) (mul2 b t)
       if dot2 p p < 0.999 then p else mul2 (norm2 p) 0.999) := by
  simp only [hyperbolicGeodesicPoints]
  rw [if_pos h, getD_range_map _ _ _ _ hi]

/-- Generic evaluation of the arc branch of `hyperbolicGeodesicPoints`
at one index, with the solved circle center passed in as `(cx, cy)`. -/
theorem hgp_arc_getD (a b : Vec2) (n : ℕ)
    (h : ¬ |a.x * b.y - a.y * b.x| < 1e-6) (cx cy : ℝ)
    (hcx : cx = ((dot2 a a + 1) / 2 * b.y - a.y * ((dot2 b b + 1) / 2))
      / (a.x * b.y - a.y * b.x))
    (hcy : cy = (a.x * ((dot2 b b + 1) / 2) - (dot2 a a + 1) / 2 * b.x)
      / (a.x * b.y - a.y * b.x))
    (i : ℕ) (hi : i < n + 1) :
    (hyperbolicGeodesicPoints a b n).getD i ⟨0, 0⟩ =
      (let r := Real.sqrt ((a.x - cx) ^ 2 + (a.y - cy) ^ 2)
       let angA := atan2 (a.y - cy) (a.x - cx)
       let angB := atan2 (b.y - cy) (b.x - cx)
       let d := wrapLtNegPi (wrapGtPi (angB - angA))
       let ang := angA + d * ((i : ℝ) / n)
       let p : Vec2 := ⟨cx + r * Real.cos ang, cy + r * Real.sin ang⟩
       if dot2 p p < 0.999 then p else mul2 (norm2 p) 0.999) := by
  subst hcx
  subst hcy
  simp only [hyperbolicGeodesicPoints]
  rw [if_neg h, getD_range_map _ _ _ _ hi]

theorem atan2_cos_sin (θ : ℝ) (h1 : -Real.pi < θ) (h2 : θ ≤ Real.pi) :
    atan2 (Real.sin θ) (Real.cos θ) = θ := by
  rw [atan2]
  have he : (⟨Real.cos θ, Real.sin θ⟩ : ℂ) = Complex.cos θ + Complex.sin θ * Complex.I := by
    apply Complex.ext <;>
      simp [Complex.cos_ofReal_re, Complex.sin_ofReal_re, Complex.cos_ofReal_im,
        Complex.sin_ofReal_im]
  rw [he]
  exact Complex.arg_cos_add_sin_mul_I ⟨h1, h2⟩

theorem atan2_zero_negone : atan2 0 (-1) = Real.pi := by
  have h := atan2_cos_sin Real.pi (by linarith [Real.pi_pos]) le_rfl
  rw [Real.sin_pi, Real.cos_pi] at h
  exact h

theorem atan2_five_pi_six : atan2 (1/2) (-(Real.sqrt 3 / 2)) = 5 * Real.pi / 6 := by
  have h := atan2_cos_sin (5 * Real.pi / 6)
    (by nlinarith [Real.pi_pos]) (by nlinarith [Real.pi_pos])
  have hs : Real.sin (5 * Real.pi / 6) = 1 / 2 := by
    rw [show 5 * Real.pi / 6 = Real.pi - Real.pi / 6 by ring, Real.sin_pi_sub,
      Real.sin_pi_div_six]
  have hc : Real.cos (5 * Real.pi / 6) = -(Real.sqrt 3 / 2) := by
    rw [show 5 * Real.pi / 6 = Real.pi - Real.pi / 6 by ring, Real.cos_pi_sub,
      Real.cos_pi_div_six]
  rw [hs, hc] at h
  exact h

theorem wrapGtPi_id {d : ℝ} (h : d ≤ Real.pi) : wrapGtPi d = d := by
  rw [wrapGtPi, dif_neg (not_lt.mpr h)]

theorem wrapLtNegPi_id {d : ℝ} (h : -Real.pi ≤ d) : wrapLtNegPi d = d := by
  rw [wrapLtNegPi, dif_neg (not_lt.mpr h)]

theorem sqrt2_lb : (1.414 : ℝ) < Real.sqrt 2 :=
  (Real.lt_sqrt (by norm_num)).mpr (by norm_num)

theorem sqrt2_ub : Real.sqrt 2 < 1.415 :=
  (Real.sqrt_lt' (by norm_num)).mpr (by norm_num)

theorem sqrt3_lb : (1.732 : ℝ) < Real.sqrt 3 :=
  (Real.lt_sqrt (by norm_num)).mpr (by norm_num)

theorem sqrt3_ub : Real.sqrt 3 < 1.7321 :=
  (Real.sqrt_lt' (by norm_num)).mpr (by norm_num)

theorem sq_sqrt2 : Real.sqrt 2 ^ 2 = 2 := Real.sq_sqrt (by norm_num)

theorem sq_sqrt3 : Real.sqrt 3 ^ 2 = 3 := Real.sq_sqrt (by norm_num)

theorem sqrt6_eq : Real.sqrt 6 = Real.sqrt 2 * Real.sqrt 3 := by
  rw [show (6:ℝ) = 2 * 3 by norm_num, Real.sqrt_mul (by norm_num)]

theorem dotB0 : dot2 (⟨Real.sqrt 2 - 1, 0⟩ : Vec2) ⟨Real.sqrt 2 - 1, 0⟩
    = 3 - 2 * Real.sqrt 2 := by
  simp only [dot2]
  linear_combination sq_sqrt2

theorem dotA0 : dot2 (⟨Real.sqrt 2 - Real.sqrt 3 / 2, 1/2⟩ : Vec2)
    ⟨Real.sqrt 2 - Real.sqrt 3 / 2, 1/2⟩ = 3 - Real.sqrt 6 := by
  simp only [dot2]
  rw [sqrt6_eq]
  linear_combination sq_sqrt2 + sq_sqrt3 / 4

theorem hcrossBA :
    ¬ |(⟨Real.sqrt 2 - 1, 0⟩ : Vec2).x * (⟨Real.sqrt 2 - Real.sqrt 3 / 2, 1/2⟩ : Vec2).y
      - (⟨Real.sqrt 2 - 1, 0⟩ : Vec2).y * (⟨Real.sqrt 2 - Real.sqrt 3 / 2, 1/2⟩ : Vec2).x|
      < 1e-6 := by
  simp only
  rw [abs_of_pos (by nlinarith [sqrt2_lb])]
  nlinarith [sqrt2_lb]

theorem hcxBA : Real.sqrt 2
    = ((dot2 (⟨Real.sqrt 2 - 1, 0⟩ : Vec2) ⟨Real.sqrt 2 - 1, 0⟩ + 1) / 2
        * (⟨Real.sqrt 2 - Real.sqrt 3 / 2, 1/2⟩ : Vec2).y
      - (⟨Real.sqrt 2 - 1, 0⟩ : Vec2).y
        * ((dot2 (⟨Real.sqrt 2 - Real.sqrt 3 / 2, 1/2⟩ : Vec2)
            ⟨Real.sqrt 2 - Real.sqrt 3 / 2, 1/2⟩ + 1) / 2))
      / ((⟨Real.sqrt 2 - 1, 0⟩ : Vec2).x * (⟨Real.sqrt 2 - Real.sqrt 3 / 2, 1/2⟩ : Vec2).y
        - (⟨Real.sqrt 2 - 1, 0⟩ : Vec2).y * (⟨Real.sqrt 2 - Real.sqrt 3 / 2, 1/2⟩ : Vec2).x) := by
  rw [dotB0, dotA0]
  simp only
  have hne : (Real.sqrt 2 - 1) * (1 / 2) - 0 * (Real.sqrt 2 - Real.sqrt 3 / 2) ≠ 0 := by
    nlinarith [sqrt2_lb]
  rw [eq_div_iff hne]
  linear_combination sq_sqrt2 / 2

theorem hcyBA : (0 : ℝ)
    = ((⟨Real.sqrt 2 - 1, 0⟩ : Vec2).x
        * ((dot2 (⟨Real.sqrt 2 - Real.sqrt 3 / 2, 1/2⟩ : Vec2)
            ⟨Real.sqrt 2 - Real.sqrt 3 / 2, 1/2⟩ + 1) / 2)
      - (dot2 (⟨Real.sqrt 2 - 1, 0⟩ : Vec2) ⟨Real.sqrt 2 - 1, 0⟩ + 1) / 2
        * (⟨Real.sqrt 2 - Real.sqrt 3 / 2, 1/2⟩ : Vec2).x)
      / ((⟨Real.sqrt 2 - 1, 0⟩ : Vec2).x * (⟨Real.sqrt 2 - Real.sqrt 3 / 2, 1/2⟩ : Vec2).y
        - (⟨Real.sqrt 2 - 1, 0⟩ : Vec2).y * (⟨Real.sqrt 2 - Real.sqrt 3 / 2, 1/2⟩ : Vec2).x) := by
  rw [dotB0, dotA0]
  simp only
  rw [sqrt6_eq]
  have hnum : (Real.sqrt 2 - 1) * ((3 - Real.sqrt 2 * Real.sqrt 3 + 1) / 2)
      - (3 - 2 * Real.sqrt 2 + 1) / 2 * (Real.sqrt 2 - Real.sqrt 3 / 2) = 0 := by
    linear_combination ((2 - Real.sqrt 3) / 2) * sq_sqrt2
  rw [hnum, zero_div]

theorem hrBA : Real.sqrt ((Real.sqrt 2 - 1 - Real.sqrt 2) ^ 2 + ((0:ℝ) - 0) ^ 2) = 1 := by
  rw [show (Real.sqrt 2 - 1 - Real.sqrt 2) ^ 2 + ((0:ℝ) - 0) ^ 2 = 1 by ring, Real.sqrt_one]

theorem hangABA : atan2 ((0:ℝ) - 0) (Real.sqrt 2 - 1 - Real.sqrt 2) = Real.pi := by
  rw [show ((0:ℝ) - 0) = 0 by ring,
    show Real.sqrt 2 - 1 - Real.sqrt 2 = -1 by ring, atan2_zero_negone]

theorem hangBBA : atan2 ((1:ℝ)/2 - 0) (Real.sqrt 2 - Real.sqrt 3 / 2 - Real.sqrt 2)
    = 5 * Real.pi / 6 := by
  rw [show ((1:ℝ)/2 - 0) = 1/2 by ring,
    show Real.sqrt 2 - Real.sqrt 3 / 2 - Real.sqrt 2 = -(Real.sqrt 3 / 2) by ring,
    atan2_five_pi_six]

theorem hdBA : wrapLtNegPi (wrapGtPi (5 * Real.pi / 6 - Real.pi)) = -(Real.pi / 6) := by
  rw [wrapGtPi_id (by nlinarith [Real.pi_pos]),
    wrapLtNegPi_id (by nlinarith [Real.pi_pos])]
  ring

theorem ptsBA0 :
    (hyperbolicGeodesicPoints ⟨Real.sqrt 2 - 1, 0⟩
      ⟨Real.sqrt 2 - Real.sqrt 3 / 2, 1/2⟩ 30).getD 0 ⟨0, 0⟩
      = ⟨Real.sqrt 2 - 1, 0⟩ := by
  rw [hgp_arc_getD _ _ 30 hcrossBA (Real.sqrt 2) 0 hcxBA hcyBA 0 (by norm_num)]
  dsimp only
  rw [hrBA, hangABA, hangBBA, hdBA, Nat.cast_zero]
  simp only [Nat.cast_ofNat]
  rw [show Real.pi + -(Real.pi / 6) * ((0:ℝ) / 30) = Real.pi by ring,
    Real.cos_pi, Real.sin_pi,
    show (⟨Real.sqrt 2 + 1 * (-1), (0:ℝ) + 1 * 0⟩ : Vec2) = ⟨Real.sqrt 2 - 1, 0⟩
      by rw [Vec2.mk.injEq]; constructor <;> ring]
  rw [if_pos (by rw [dotB0]; nlinarith [sqrt2_lb])]

theorem cos_pi180_lb : (0.9998 : ℝ) ≤ Real.cos (Real.pi / 180) := by
  have hb := Real.one_sub_sq_div_two_le_cos (x := Real.pi / 180)
  have hpi := Real.pi_lt_d2
  have hpos := Real.pi_pos
  nlinarith

theorem ptsBA1 :
    (hyperbolicGeodesicPoints ⟨Real.sqrt 2 - 1, 0⟩
      ⟨Real.sqrt 2 - Real.sqrt 3 / 2, 1/2⟩ 30).getD 1 ⟨0, 0⟩
      = ⟨Real.sqrt 2 - Real.cos (Real.pi / 180), Real.sin (Real.pi / 180)⟩ := by
  rw [hgp_arc_getD _ _ 30 hcrossBA (Real.sqrt 2) 0 hcxBA hcyBA 1 (by norm_num)]
  dsimp only
  rw [hrBA, hangABA, hangBBA, hdBA, Nat.cast_one]
  simp only [Nat.cast_ofNat]
  rw [show Real.pi + -(Real.pi / 6) * ((1:ℝ) / 30) = Real.pi - Real.pi / 180 by ring,
    Real.cos_pi_sub, Real.sin_pi_sub,
    show (⟨Real.sqrt 2 + 1 * -Real.cos (Real.pi / 180),
        (0:ℝ) + 1 * Real.sin (Real.pi / 180)⟩ : Vec2)
      = ⟨Real.sqrt 2 - Real.cos (Real.pi / 180), Real.sin (Real.pi / 180)⟩
      by rw [Vec2.mk.injEq]; constructor <;> ring]
  rw [if_pos]
  have hdots : dot2 (⟨Real.sqrt 2 - Real.cos (Real.pi / 180),
      Real.sin (Real.pi / 180)⟩ : Vec2)
      ⟨Real.sqrt 2 - Real.cos (Real.pi / 180), Real.sin (Real.pi / 180)⟩
      = 3 - 2 * Real.sqrt 2 * Real.cos (Real.pi / 180) := by
    simp only [dot2]
    linear_combination sq_sqrt2 + Real.sin_sq_add_cos_sq (Real.pi / 180)
  rw [hdots]
  have hprod : (1.414 : ℝ) * 0.9998 ≤ Real.sqrt 2 * Real.cos (Real.pi / 180) := by
    have := mul_le_mul sqrt2_lb.le cos_pi180_lb (by norm_num)
      (by positivity : (0:ℝ) ≤ Real.sqrt 2)
    linarith
  nlinarith [hprod]

theorem sin_pi360_pos : 0 < Real.sin (Real.pi / 360) :=
  Real.sin_pos_of_pos_of_lt_pi (by positivity) (by nlinarith [Real.pi_pos])

theorem cos_pi180_as_half : Real.cos (Real.pi / 180)
    = 1 - 2 * Real.sin (Real.pi / 360) ^ 2 := by
  rw [show Real.pi / 180 = 2 * (Real.pi / 360) by ring, Real.cos_two_mul]
  linear_combination 2 * Real.sin_sq_add_cos_sq (Real.pi / 360)

theorem sin_pi180_as_half : Real.sin (Real.pi / 180)
    = 2 * Real.sin (Real.pi / 360) * Real.cos (Real.pi / 360) := by
  rw [show Real.pi / 180 = 2 * (Real.pi / 360) by ring, Real.sin_two_mul]

theorem d1_eval :
    norm2 (sub2 ⟨Real.sqrt 2 - Real.cos (Real.pi / 180), Real.sin (Real.pi / 180)⟩
      ⟨Real.sqrt 2 - 1, 0⟩)
      = ⟨Real.sin (Real.pi / 360), Real.cos (Real.pi / 360)⟩ := by
  have hsub : sub2 (⟨Real.sqrt 2 - Real.cos (Real.pi / 180),
      Real.sin (Real.pi / 180)⟩ : Vec2) ⟨Real.sqrt 2 - 1, 0⟩
      = ⟨1 - Real.cos (Real.pi / 180), Real.sin (Real.pi / 180)⟩ := by
    simp only [sub2]
    rw [Vec2.mk.injEq]
    constructor <;> ring
  rw [hsub, norm2]
  have hhyp : hypot2 ⟨1 - Real.cos (Real.pi / 180), Real.sin (Real.pi / 180)⟩
      = 2 * Real.sin (Real.pi / 360) := by
    rw [hypot2]
    simp only
    rw [show (1 - Real.cos (Real.pi / 180)) ^ 2 + Real.sin (Real.pi / 180) ^ 2
        = (2 * Real.sin (Real.pi / 360)) ^ 2 by
      rw [cos_pi180_as_half, sin_pi180_as_half]
      linear_combination (4 * Real.sin (Real.pi / 360) ^ 2)
        * Real.sin_sq_add_cos_sq (Real.pi / 360)]
    exact Real.sqrt_sq (by linarith [sin_pi360_pos])
  simp only [hhyp]
  rw [if_pos (show (2:ℝ) * Real.sin (Real.pi / 360) > 0 by linarith [sin_pi360_pos])]
  rw [mul2]
  simp only
  rw [Vec2.mk.injEq]
  have hne : Real.sin (Real.pi / 360) ≠ 0 := ne_of_gt sin_pi360_pos
  constructor
  · rw [cos_pi180_as_half]
    field_simp
    ring
  · rw [sin_pi180_as_half]
    field_simp

theorem hcrossBC : |(⟨Real.sqrt 2 - 1, 0⟩ : Vec2).x * (⟨4/5, 0⟩ : Vec2).y
    - (⟨Real.sqrt 2 - 1, 0⟩ : Vec2).y * (⟨4/5, 0⟩ : Vec2).x| < 1e-6 := by
  simp only
  rw [show (Real.sqrt 2 - 1) * 0 - 0 * (4/5) = (0:ℝ) by ring, abs_zero]
  norm_num

theorem ptsBC0 :
    (hyperbolicGeodesicPoints ⟨Real.sqrt 2 - 1, 0⟩ ⟨4/5, 0⟩ 30).getD 0 ⟨0, 0⟩
      = ⟨Real.sqrt 2 - 1, 0⟩ := by
  rw [hgp_chord_getD _ _ 30 hcrossBC 0 (by norm_num)]
  dsimp only
  simp only [add2, mul2, Nat.cast_zero, Nat.cast_ofNat]
  rw [show (⟨(Real.sqrt 2 - 1) * (1 - 0 / 30) + 4/5 * (0 / 30),
      (0:ℝ) * (1 - 0 / 30) + 0 * (0 / 30)⟩ : Vec2) = ⟨Real.sqrt 2 - 1, 0⟩
    by rw [Vec2.mk.injEq]; constructor <;> ring]
  rw [if_pos (by rw [dotB0]; nlinarith [sqrt2_lb])]

theorem ptsBC1 :
    (hyperbolicGeodesicPoints ⟨Real.sqrt 2 - 1, 0⟩ ⟨4/5, 0⟩ 30).getD 1 ⟨0, 0⟩
      = ⟨Real.sqrt 2 - 1 + (9/5 - Real.sqrt 2) / 30, 0⟩ := by
  rw [hgp_chord_getD _ _ 30 hcrossBC 1 (by norm_num)]
  dsimp only
  simp only [add2, mul2, Nat.cast_one, Nat.cast_ofNat]
  rw [show (⟨(Real.sqrt 2 - 1) * (1 - 1 / 30) + 4/5 * (1 / 30),
      (0:ℝ) * (1 - 1 / 30) + 0 * (1 / 30)⟩ : Vec2)
      = ⟨Real.sqrt 2 - 1 + (9/5 - Real.sqrt 2) / 30, 0⟩
    by rw [Vec2.mk.injEq]; constructor <;> ring]
  rw [if_pos]
  simp only [dot2]
  nlinarith [sqrt2_lb, sqrt2_ub, sq_sqrt2]

theorem d2_eval :
    norm2 (sub2 ⟨Real.sqrt 2 - 1 + (9/5 - Real.sqrt 2) / 30, 0⟩ ⟨Real.sqrt 2 - 1, 0⟩)
      = ⟨1, 0⟩ := by
  have hpos : (0:ℝ) < (9/5 - Real.sqrt 2) / 30 := by nlinarith [sqrt2_ub]
  have hsub : sub2 (⟨Real.sqrt 2 - 1 + (9/5 - Real.sqrt 2) / 30, 0⟩ : Vec2)
      ⟨Real.sqrt 2 - 1, 0⟩ = ⟨(9/5 - Real.sqrt 2) / 30, 0⟩ := by
    simp only [sub2]
    rw [Vec2.mk.injEq]
    constructor <;> ring
  rw [hsub, norm2]
  have hhyp : hypot2 ⟨(9/5 - Real.sqrt 2) / 30, 0⟩ = (9/5 - Real.sqrt 2) / 30 := by
    rw [hypot2]
    simp only
    rw [show ((9/5 - Real.sqrt 2) / 30) ^ 2 + (0:ℝ) ^ 2
        = ((9/5 - Real.sqrt 2) / 30) ^ 2 by ring]
    exact Real.sqrt_sq hpos.le
  simp only [hhyp]
  rw [if_pos hpos, mul2]
  simp only
  rw [Vec2.mk.injEq]
  constructor
  · rw [mul_one_div, div_self (ne_of_gt hpos)]
  · ring

theorem angleAt_H_eval :
    angleAt .H ⟨Real.sqrt 2 - Real.sqrt 3 / 2, 1/2⟩ ⟨Real.sqrt 2 - 1, 0⟩ ⟨4/5, 0⟩
      = Real.pi / 2 - Real.pi / 360 := by
  simp only [angleAt]
  rw [ptsBA1, ptsBA0, ptsBC1, ptsBC0, d1_eval, d2_eval]
  rw [show dot2 (⟨Real.sin (Real.pi / 360), Real.cos (Real.pi / 360)⟩ : Vec2) ⟨1, 0⟩
      = Real.sin (Real.pi / 360) by simp only [dot2]; ring]
  rw [clamp, min_eq_right (Real.sin_le_one _), max_eq_right (Real.neg_one_le_sin _)]
  rw [show Real.sin (Real.pi / 360) = Real.cos (Real.pi / 2 - Real.pi / 360) by
    rw [Real.cos_pi_div_two_sub]]
  exact Real.arccos_cos (by linarith [Real.pi_pos]) (by linarith [Real.pi_pos])

theorem sqrt6_lb : (2.449 : ℝ) < Real.sqrt 6 :=
  (Real.lt_sqrt (by norm_num)).mpr (by norm_num)

theorem sqrt6_ub : Real.sqrt 6 < 2.4495 :=
  (Real.sqrt_lt' (by norm_num)).mpr (by norm_num)

theorem hsqrt23 : Real.sqrt (2 - Real.sqrt 3) = (Real.sqrt 6 - Real.sqrt 2) / 2 := by
  have hsq : ((Real.sqrt 6 - Real.sqrt 2) / 2) ^ 2 = 2 - Real.sqrt 3 := by
    rw [sqrt6_eq]
    linear_combination ((Real.sqrt 3 - 1) ^ 2 / 4) * sq_sqrt2 + sq_sqrt3 / 2
  rw [← hsq]
  exact Real.sqrt_sq (by nlinarith [sqrt6_lb, sqrt2_ub])

theorem hcos512 : Real.cos (5 * Real.pi / 12) = (Real.sqrt 6 - Real.sqrt 2) / 4 := by
  rw [show 5 * Real.pi / 12 = Real.pi / 4 + Real.pi / 6 by ring, Real.cos_add,
    Real.cos_pi_div_four, Real.cos_pi_div_six, Real.sin_pi_div_four, Real.sin_pi_div_six,
    sqrt6_eq]
  ring

theorem hu_eval :
    norm2 (sub2 ⟨Real.sqrt 2 - Real.sqrt 3 / 2, 1/2⟩ ⟨Real.sqrt 2 - 1, 0⟩)
      = ⟨(Real.sqrt 6 - Real.sqrt 2) / 4, (Real.sqrt 6 + Real.sqrt 2) / 4⟩ := by
  have hsub : sub2 (⟨Real.sqrt 2 - Real.sqrt 3 / 2, 1/2⟩ : Vec2) ⟨Real.sqrt 2 - 1, 0⟩
      = ⟨1 - Real.sqrt 3 / 2, 1/2⟩ := by
    simp only [sub2]
    rw [Vec2.mk.injEq]
    constructor <;> ring
  rw [hsub, norm2]
  have hpos : (0:ℝ) < (Real.sqrt 6 - Real.sqrt 2) / 2 := by
    nlinarith [sqrt6_lb, sqrt2_ub]
  have hhyp : hypot2 ⟨1 - Real.sqrt 3 / 2, 1/2⟩ = (Real.sqrt 6 - Real.sqrt 2) / 2 := by
    rw [hypot2]
    simp only
    rw [show (1 - Real.sqrt 3 / 2) ^ 2 + ((1:ℝ)/2) ^ 2 = 2 - Real.sqrt 3 by
      linear_combination sq_sqrt3 / 4]
    exact hsqrt23
  simp only [hhyp]
  rw [if_pos hpos, mul2]
  simp only
  rw [Vec2.mk.injEq]
  constructor
  · rw [mul_one_div, div_eq_iff (ne_of_gt hpos), sqrt6_eq]
    linear_combination (-(Real.sqrt 3 - 1) ^ 2 / 8) * sq_sqrt2 - sq_sqrt3 / 4
  · rw [mul_one_div, div_eq_iff (ne_of_gt hpos), sqrt6_eq]
    linear_combination (-(Real.sqrt 3 ^ 2 - 1) / 8) * sq_sqrt2 - sq_sqrt3 / 4

theorem hv_eval :
    norm2 (sub2 ⟨4/5, 0⟩ ⟨Real.sqrt 2 - 1, 0⟩) = ⟨1, 0⟩ := by
  have hpos : (0:ℝ) < 9/5 - Real.sqrt 2 := by nlinarith [sqrt2_ub]
  have hsub : sub2 (⟨4/5, 0⟩ : Vec2) ⟨Real.sqrt 2 - 1, 0⟩ = ⟨9/5 - Real.sqrt 2, 0⟩ := by
    simp only [sub2]
    rw [Vec2.mk.injEq]
    constructor <;> ring
  rw [hsub, norm2]
  have hhyp : hypot2 ⟨9/5 - Real.sqrt 2, 0⟩ = 9/5 - Real.sqrt 2 := by
    rw [hypot2]
    simp only
    rw [show (9/5 - Real.sqrt 2) ^ 2 + (0:ℝ) ^ 2 = (9/5 - Real.sqrt 2) ^ 2 by ring]
    exact Real.sqrt_sq hpos.le
  simp only [hhyp]
  rw [if_pos hpos, mul2]
  simp only
  rw [Vec2.mk.injEq]
  constructor
  · rw [mul_one_div, div_self (ne_of_gt hpos)]
  · ring

theorem euclidRaw_eval :
    euclidRawAngle ⟨Real.sqrt 2 - Real.sqrt 3 / 2, 1/2⟩ ⟨Real.sqrt 2 - 1, 0⟩ ⟨4/5, 0⟩
      = 5 * Real.pi / 12 := by
  rw [euclidRawAngle, hu_eval, hv_eval]
  rw [show dot2 (⟨(Real.sqrt 6 - Real.sqrt 2) / 4, (Real.sqrt 6 + Real.sqrt 2) / 4⟩ : Vec2)
      ⟨1, 0⟩ = (Real.sqrt 6 - Real.sqrt 2) / 4 by simp only [dot2]; ring]
  rw [clamp,
    min_eq_right (show (Real.sqrt 6 - Real.sqrt 2) / 4 ≤ 1 by nlinarith [sqrt6_ub, sqrt2_lb]),
    max_eq_right (show (-1:ℝ) ≤ (Real.sqrt 6 - Real.sqrt 2) / 4 by
      nlinarith [sqrt6_lb, sqrt2_ub])]
  rw [← hcos512]
  exact Real.arccos_cos (by positivity) (by linarith [Real.pi_pos])

/-- **C4, counterexample.**  The three points `A = (√2 − √3/2, 1/2)`,
`B = (√2 − 1, 0)`, `C = (4/5, 0)` all lie strictly inside the Poincaré
disk, yet `angleAt("H", A, B, C)` returns `π/2 − π/360` (the first arc
step of `hyperbolicGeodesicPoints(B, A, 30)` leaves `B` along the
orthogonal circle centred at `(√2, 0)`, not along the Euclidean chord
`A − B`), while the Euclidean-direction formula on the raw coordinates
gives `arccos((√6 − √2)/4) = 5π/12`.  The gap is `29π/360 > 1/4`, so
`angleAt` does not implement the claimed conformal formula. -/
theorem C4_counterexample :
    dot2 (⟨Real.sqrt 2 - Real.sqrt 3 / 2, 1/2⟩ : Vec2)
        ⟨Real.sqrt 2 - Real.sqrt 3 / 2, 1/2⟩ < 1 ∧
      dot2 (⟨Real.sqrt 2 - 1, 0⟩ : Vec2) ⟨Real.sqrt 2 - 1, 0⟩ < 1 ∧
      dot2 (⟨4/5, 0⟩ : Vec2) ⟨4/5, 0⟩ < 1 ∧
      1/4 < |angleAt .H ⟨Real.sqrt 2 - Real.sqrt 3 / 2, 1/2⟩ ⟨Real.sqrt 2 - 1, 0⟩ ⟨4/5, 0⟩
        - euclidRawAngle ⟨Real.sqrt 2 - Real.sqrt 3 / 2, 1/2⟩ ⟨Real.sqrt 2 - 1, 0⟩
            ⟨4/5, 0⟩| := by
  refine ⟨?_, ?_, ?_, ?_⟩
  · rw [dotA0]
    nlinarith [sqrt6_lb]
  · rw [dotB0]
    nlinarith [sqrt2_lb]
  · simp only [dot2]
    norm_num
  · rw [angleAt_H_eval, euclidRaw_eval,
      show Real.pi / 2 - Real.pi / 360 - 5 * Real.pi / 12 = 29 * Real.pi / 360 by ring,
      abs_of_pos (by positivity)]
    linarith [Real.pi_gt_d2]

theorem sq_dist_pos (P Q : Vec2) (h : P ≠ Q) :
    0 < (P.x - Q.x) ^ 2 + (P.y - Q.y) ^ 2 := by
  by_contra hle
  push_neg at hle
  have hx2 : (P.x - Q.x) ^ 2 = 0 := by
    nlinarith [sq_nonneg (P.x - Q.x), sq_nonneg (P.y - Q.y)]
  have hy2 : (P.y - Q.y) ^ 2 = 0 := by
    nlinarith [sq_nonneg (P.x - Q.x), sq_nonneg (P.y - Q.y)]
  apply h
  have hx := sub_eq_zero.mp (sq_eq_zero_iff.mp hx2)
  have hy := sub_eq_zero.mp (sq_eq_zero_iff.mp hy2)
  obtain ⟨px, py⟩ := P
  obtain ⟨qx, qy⟩ := Q
  simp only at hx hy
  rw [Vec2.mk.injEq]
  exact ⟨hx, hy⟩

/-- **C4 (amended).**  The conformality claim holds for `angleHand`:
for distinct raw coordinates `angleHand("H", A, B, C)` is exactly the
Euclidean-direction formula `arccos` of the clamped dot product of the
normalized vectors `A − B` and `C − B`, with no extra correction.  (It
fails for `angleAt`, which follows the exact geodesic arcs; see the
counterexample.) -/
theorem C4_angleHand_conformal (A B C : Vec2) (hAB : A ≠ B) (hCB : C ≠ B) :
    App.angleHand .H A B C = euclidRawAngle A B C := by
  have hnu : (0:ℝ) < Real.sqrt ((A.x - B.x) ^ 2 + (A.y - B.y) ^ 2) :=
    Real.sqrt_pos.mpr (sq_dist_pos A B hAB)
  have hnv : (0:ℝ) < Real.sqrt ((C.x - B.x) ^ 2 + (C.y - B.y) ^ 2) :=
    Real.sqrt_pos.mpr (sq_dist_pos C B hCB)
  simp only [App.angleHand, euclidRawAngle, norm2, sub2, hypot2, dot2, mul2, clamp, App.clamp]
  rw [if_neg (ne_of_gt hnu), if_neg (ne_of_gt hnv), if_pos hnu, if_pos hnv]
  have key : ((A.x - B.x) * (C.x - B.x) + (A.y - B.y) * (C.y - B.y))
      / (Real.sqrt ((A.x - B.x) ^ 2 + (A.y - B.y) ^ 2)
        * Real.sqrt ((C.x - B.x) ^ 2 + (C.y - B.y) ^ 2))
      = (A.x - B.x) * (1 / Real.sqrt ((A.x - B.x) ^ 2 + (A.y - B.y) ^ 2))
          * ((C.x - B.x) * (1 / Real.sqrt ((C.x - B.x) ^ 2 + (C.y - B.y) ^ 2)))
        + (A.y - B.y) * (1 / Real.sqrt ((A.x - B.x) ^ 2 + (A.y - B.y) ^ 2))
          * ((C.y - B.y) * (1 / Real.sqrt ((C.x - B.x) ^ 2 + (C.y - B.y) ^ 2))) := by
    field_simp
  rw [key]

theorem C4_angleHand_conformal_witness :
    (⟨1/2, 0⟩ : Vec2) ≠ ⟨0, 0⟩ ∧ (⟨0, 1/2⟩ : Vec2) ≠ ⟨0, 0⟩ ∧
      App.angleHand .H ⟨1/2, 0⟩ ⟨0, 0⟩ ⟨0, 1/2⟩
        = euclidRawAngle ⟨1/2, 0⟩ ⟨0, 0⟩ ⟨0, 1/2⟩ := by
  have h1 : (⟨1/2, 0⟩ : Vec2) ≠ ⟨0, 0⟩ := by
    rw [ne_eq, Vec2.mk.injEq]
    norm_num
  have h2 : (⟨0, 1/2⟩ : Vec2) ≠ ⟨0, 0⟩ := by
    rw [ne_eq, Vec2.mk.injEq]
    norm_num
  exact ⟨h1, h2, C4_angleHand_conformal _ _ _ h1 h2⟩
